import Mathlib

/-!
A verification development for the SCP chat core (tp8): the wire protocol
(`src/tp8/src/protocole.rs`), the server directory and handlers
(`src/tp8/src/bin/serveur.rs`), and the reference client command encoder
(`src/tp8/src/bin/client.rs`), shallowly embedded as pure Lean functions.

Modelling conventions:
- `HashMap` becomes an association list (`List (K × V)`) with HashMap
  semantics: `HMap.insert` replaces the value of an existing key in place,
  `HMap.erase` removes every entry of the key, `HMap.lookup` finds the entry.
- `chrono::DateTime<Utc>` becomes a `Nat` instant; functions that call
  `Utc::now()` take an explicit `now : Nat` argument.
- A tokio mpsc sender becomes the queue it feeds: `client_senders` maps a
  client to the list of frames enqueued to it, in enqueue order.
- Fallible operations return `Except SrvErr _`; `SrvErr` enumerates the
  distinct error values produced in the Rust source (one constructor per
  distinct error string / format! call site), with `SrvErr.render` giving
  the corresponding text.
- `serde_json` is modelled at the JSON-document level: `ProtocolFrame.serialize`
  produces the JSON value the derived `Serialize` impl emits (adjacent tagging
  with tag = "type", content = "data" for `Message`, externally tagged unit
  variants for `ErrorCode`), `ProtocolFrame.deserialize` is the matching
  decoder, and `Json.render` gives the compact text serde_json would print,
  used for the encoded byte length that `validate()` checks.
-/

abbrev ClientId := String

abbrev RoomId := String

/-- `SessionState` from protocole.rs. -/
inductive SessionState where
  | Connected
  | Authenticated (username : String)
  | InRoom (username : String) (room_id : RoomId)
  | Closed
deriving DecidableEq

/-- `ErrorCode` from protocole.rs. -/
inductive ErrorCode where
  | UsernameAlreadyTaken
  | RoomNotFound
  | UserNotFound
  | InvalidState
  | InvalidFormat
  | MessageTooLarge
  | RateLimitExceeded
  | InternalError
deriving DecidableEq

/-- `Message` from protocole.rs. `DateTime<Utc>` fields are `Nat` instants;
the `HashMap<String, usize>` of `RoomList` is an association list. The Rust
field `from` is spelled `from_` (Lean keyword). -/
inductive Message where
  | Connect (username : String)
  | JoinRoom (room_id : String)
  | LeaveRoom
  | SendMessage (content : String)
  | PrivateMessage (target_user : String) (content : String)
  | ListRooms
  | ListUsers
  | Disconnect
  | ConnectAck (client_id : String) (message : String)
  | ConnectError (reason : String)
  | JoinRoomAck (room_id : String) (users : List String)
  | JoinRoomError (reason : String)
  | UserJoined (username : String) (room_id : String)
  | UserLeft (username : String) (room_id : String)
  | RoomMessage (from_ : String) (content : String) (timestamp : Nat) (room_id : String)
  | PrivateMessageReceived (from_ : String) (content : String) (timestamp : Nat)
  | RoomList (rooms : List (String × Nat))
  | UserList (users : List String) (room_id : String)
  | Error (code : ErrorCode) (message : String)
  | Ping
  | Pong
deriving DecidableEq

/-- `PROTOCOL_VERSION` from protocole.rs. -/
def PROTOCOL_VERSION : Nat := 1

/-- `MAX_MESSAGE_SIZE` from protocole.rs (64 KiB). -/
def MAX_MESSAGE_SIZE : Nat := 65536

/-- `ProtocolFrame` from protocole.rs; `timestamp` is a `Nat` instant. -/
structure ProtocolFrame where
  version : Nat
  session_id : Option String
  sequence : Nat
  message : Message
  timestamp : Nat
deriving DecidableEq

/-- `ProtocolFrame::new`; `Utc::now()` is the explicit `now` argument. -/
def ProtocolFrame.new (message : Message) (session_id : Option String)
    (sequence : Nat) (now : Nat) : ProtocolFrame :=
  { version := PROTOCOL_VERSION, session_id := session_id, sequence := sequence,
    message := message, timestamp := now }

/-- `Message::requires_auth` from protocole.rs. -/
def Message.requires_auth : Message → Bool
  | .JoinRoom _ | .LeaveRoom | .SendMessage _ | .PrivateMessage _ _
  | .ListRooms | .ListUsers | .Disconnect => true
  | _ => false

/-- `Message::requires_room` from protocole.rs. -/
def Message.requires_room : Message → Bool
  | .SendMessage _ | .ListUsers => true
  | _ => false

/-- `matches!(st, SessionState::Authenticated(_) | SessionState::InRoom(_, _))`. -/
def SessionState.isAuthedOrInRoom : SessionState → Bool
  | .Authenticated _ | .InRoom _ _ => true
  | _ => false

/-- `matches!(st, SessionState::InRoom(_, _))`. -/
def SessionState.isInRoom : SessionState → Bool
  | .InRoom _ _ => true
  | _ => false

/-! ## JSON documents and the serde_json text layer -/

/-- A JSON document. Only the shapes serde_json produces for this protocol
are needed: all numbers occurring in frames are unsigned integers. -/
inductive Json where
  | null
  | num (n : Nat)
  | str (s : String)
  | arr (elems : List Json)
  | obj (fields : List (String × Json))

/-- serde_json string escaping for one character: `"`, `\` and
control characters below 0x20 are escaped, everything else is literal. -/
def Json.escapeChar (c : Char) : String :=
  if c = Char.ofNat 34 then "\\\""
  else if c = Char.ofNat 92 then "\\\\"
  else if c = Char.ofNat 8 then "\\b"
  else if c = Char.ofNat 12 then "\\f"
  else if c = Char.ofNat 10 then "\\n"
  else if c = Char.ofNat 13 then "\\r"
  else if c = Char.ofNat 9 then "\\t"
  else if c.toNat < 32 then
    "\\u00" ++ String.singleton (Nat.digitChar (c.toNat / 16))
            ++ String.singleton (Nat.digitChar (c.toNat % 16))
  else String.singleton c

/-- serde_json escaping of a whole string body. -/
def Json.escapeString (s : String) : String :=
  String.join (s.toList.map Json.escapeChar)

mutual

/-- Compact rendering of a JSON document, as `serde_json::to_string` prints it. -/
def Json.render : Json → String
  | .null => "null"
  | .num n => Nat.repr n
  | .str s => "\"" ++ Json.escapeString s ++ "\""
  | .arr elems => "[" ++ Json.renderElems elems ++ "]"
  | .obj fields => "\x7b" ++ Json.renderFields fields ++ "\x7d"

def Json.renderElems : List Json → String
  | [] => ""
  | [x] => Json.render x
  | x :: y :: rest => Json.render x ++ "," ++ Json.renderElems (y :: rest)

def Json.renderFields : List (String × Json) → String
  | [] => ""
  | [(k, v)] => "\"" ++ Json.escapeString k ++ "\":" ++ Json.render v
  | (k, v) :: f :: rest =>
      "\"" ++ Json.escapeString k ++ "\":" ++ Json.render v ++ ","
        ++ Json.renderFields (f :: rest)

end

/-- Externally tagged serialization of the fieldless `ErrorCode` enum:
a bare JSON string holding the variant name. -/
def ErrorCode.toJson : ErrorCode → Json
  | .UsernameAlreadyTaken => .str "UsernameAlreadyTaken"
  | .RoomNotFound => .str "RoomNotFound"
  | .UserNotFound => .str "UserNotFound"
  | .InvalidState => .str "InvalidState"
  | .InvalidFormat => .str "InvalidFormat"
  | .MessageTooLarge => .str "MessageTooLarge"
  | .RateLimitExceeded => .str "RateLimitExceeded"
  | .InternalError => .str "InternalError"

/-- Decoder matching `ErrorCode.toJson`. -/
def ErrorCode.fromJson : Json → Option ErrorCode
  | .str "UsernameAlreadyTaken" => some .UsernameAlreadyTaken
  | .str "RoomNotFound" => some .RoomNotFound
  | .str "UserNotFound" => some .UserNotFound
  | .str "InvalidState" => some .InvalidState
  | .str "InvalidFormat" => some .InvalidFormat
  | .str "MessageTooLarge" => some .MessageTooLarge
  | .str "RateLimitExceeded" => some .RateLimitExceeded
  | .str "InternalError" => some .InternalError
  | _ => none

/-- Adjacently tagged serialization of `Message`
(`serde(tag = "type", content = "data")`): struct variants become
`\x7b"type": name, "data": fields\x7d`, unit variants just `\x7b"type": name\x7d`.
Fields appear in declaration order; timestamps are JSON numbers. -/
def Message.toJson : Message → Json
  | .Connect username =>
      .obj [("type", .str "Connect"), ("data", .obj [("username", .str username)])]
  | .JoinRoom room_id =>
      .obj [("type", .str "JoinRoom"), ("data", .obj [("room_id", .str room_id)])]
  | .LeaveRoom => .obj [("type", .str "LeaveRoom")]
  | .SendMessage content =>
      .obj [("type", .str "SendMessage"), ("data", .obj [("content", .str content)])]
  | .PrivateMessage target_user content =>
      .obj [("type", .str "PrivateMessage"),
            ("data", .obj [("target_user", .str target_user), ("content", .str content)])]
  | .ListRooms => .obj [("type", .str "ListRooms")]
  | .ListUsers => .obj [("type", .str "ListUsers")]
  | .Disconnect => .obj [("type", .str "Disconnect")]
  | .ConnectAck client_id message =>
      .obj [("type", .str "ConnectAck"),
            ("data", .obj [("client_id", .str client_id), ("message", .str message)])]
  | .ConnectError reason =>
      .obj [("type", .str "ConnectError"), ("data", .obj [("reason", .str reason)])]
  | .JoinRoomAck room_id users =>
      .obj [("type", .str "JoinRoomAck"),
            ("data", .obj [("room_id", .str room_id), ("users", .arr (users.map Json.str))])]
  | .JoinRoomError reason =>
      .obj [("type", .str "JoinRoomError"), ("data", .obj [("reason", .str reason)])]
  | .UserJoined username room_id =>
      .obj [("type", .str "UserJoined"),
            ("data", .obj [("username", .str username), ("room_id", .str room_id)])]
  | .UserLeft username room_id =>
      .obj [("type", .str "UserLeft"),
            ("data", .obj [("username", .str username), ("room_id", .str room_id)])]
  | .RoomMessage from_ content timestamp room_id =>
      .obj [("type", .str "RoomMessage"),
            ("data", .obj [("from", .str from_), ("content", .str content),
                           ("timestamp", .num timestamp), ("room_id", .str room_id)])]
  | .PrivateMessageReceived from_ content timestamp =>
      .obj [("type", .str "PrivateMessageReceived"),
            ("data", .obj [("from", .str from_), ("content", .str content),
                           ("timestamp", .num timestamp)])]
  | .RoomList rooms =>
      .obj [("type", .str "RoomList"),
            ("data", .obj [("rooms", .obj (rooms.map fun p => (p.1, Json.num p.2)))])]
  | .UserList users room_id =>
      .obj [("type", .str "UserList"),
            ("data", .obj [("users", .arr (users.map Json.str)), ("room_id", .str room_id)])]
  | .Error code message =>
      .obj [("type", .str "Error"),
            ("data", .obj [("code", code.toJson), ("message", .str message)])]
  | .Ping => .obj [("type", .str "Ping")]
  | .Pong => .obj [("type", .str "Pong")]

/-- Decode a JSON array of strings. -/
def Json.decodeStrList : List Json → Option (List String)
  | [] => some []
  | .str s :: rest => (Json.decodeStrList rest).map (s :: ·)
  | _ => none

/-- Decode the room-count object of `RoomList`. -/
def Json.decodeRoomCounts : List (String × Json) → Option (List (String × Nat))
  | [] => some []
  | (k, .num n) :: rest => (Json.decodeRoomCounts rest).map ((k, n) :: ·)
  | _ => none

/-- Decoder for the unit variants (frames of shape `\x7b"type": name\x7d`). -/
def Message.fromJsonUnit (t : String) : Option Message :=
  if t = "LeaveRoom" then some .LeaveRoom
  else if t = "ListRooms" then some .ListRooms
  else if t = "ListUsers" then some .ListUsers
  else if t = "Disconnect" then some .Disconnect
  else if t = "Ping" then some .Ping
  else if t = "Pong" then some .Pong
  else none

/-- Decoder for one-string-field data objects. -/
def Json.decodeField1 (name : String) (mk : String → Message) :
    List (String × Json) → Option Message
  | [(n, .str a)] => if n = name then some (mk a) else none
  | _ => none

/-- Decoder for two-string-field data objects. -/
def Json.decodeField2 (n1 n2 : String) (mk : String → String → Message) :
    List (String × Json) → Option Message
  | [(m1, .str a), (m2, .str b)] =>
      if m1 = n1 && m2 = n2 then some (mk a b) else none
  | _ => none

/-- Decoder for the payload of a tagged `Message` variant carrying data. -/
def Message.fromJsonData (t : String) (fields : List (String × Json)) :
    Option Message :=
  if t = "Connect" then Json.decodeField1 "username" Message.Connect fields
  else if t = "JoinRoom" then Json.decodeField1 "room_id" Message.JoinRoom fields
  else if t = "SendMessage" then Json.decodeField1 "content" Message.SendMessage fields
  else if t = "PrivateMessage" then
    Json.decodeField2 "target_user" "content" Message.PrivateMessage fields
  else if t = "ConnectAck" then
    Json.decodeField2 "client_id" "message" Message.ConnectAck fields
  else if t = "ConnectError" then
    Json.decodeField1 "reason" Message.ConnectError fields
  else if t = "JoinRoomAck" then
    match fields with
    | [("room_id", .str room_id), ("users", .arr us)] =>
        (Json.decodeStrList us).map (Message.JoinRoomAck room_id)
    | _ => none
  else if t = "JoinRoomError" then
    Json.decodeField1 "reason" Message.JoinRoomError fields
  else if t = "UserJoined" then
    Json.decodeField2 "username" "room_id" Message.UserJoined fields
  else if t = "UserLeft" then
    Json.decodeField2 "username" "room_id" Message.UserLeft fields
  else if t = "RoomMessage" then
    match fields with
    | [("from", .str from_), ("content", .str content),
       ("timestamp", .num timestamp), ("room_id", .str room_id)] =>
        some (.RoomMessage from_ content timestamp room_id)
    | _ => none
  else if t = "PrivateMessageReceived" then
    match fields with
    | [("from", .str from_), ("content", .str content), ("timestamp", .num timestamp)] =>
        some (.PrivateMessageReceived from_ content timestamp)
    | _ => none
  else if t = "RoomList" then
    match fields with
    | [("rooms", .obj kvs)] => (Json.decodeRoomCounts kvs).map Message.RoomList
    | _ => none
  else if t = "UserList" then
    match fields with
    | [("users", .arr us), ("room_id", .str room_id)] =>
        (Json.decodeStrList us).map (fun users => Message.UserList users room_id)
    | _ => none
  else if t = "Error" then
    match fields with
    | [("code", c), ("message", .str message)] =>
        (ErrorCode.fromJson c).map (fun code => Message.Error code message)
    | _ => none
  else none

/-- Decoder matching `Message.toJson`. -/
def Message.fromJson : Json → Option Message
  | .obj [("type", .str t)] => Message.fromJsonUnit t
  | .obj [("type", .str t), ("data", .obj fields)] => Message.fromJsonData t fields
  | _ => none

/-- Serialization of an `Option<String>` field. -/
def Json.ofOptStr : Option String → Json
  | none => .null
  | some s => .str s

/-- Decoder matching `Json.ofOptStr`. -/
def Json.toOptStr : Json → Option (Option String)
  | .null => some none
  | .str s => some (some s)
  | _ => none

/-- `ProtocolFrame::serialize`, modelled at the JSON-document level: the JSON
value `serde_json::to_string(self)` serializes (struct fields in declaration
order); the text layer is `Json.render`. -/
def ProtocolFrame.serialize (f : ProtocolFrame) : Json :=
  .obj [("version", .num f.version), ("session_id", Json.ofOptStr f.session_id),
        ("sequence", .num f.sequence), ("message", f.message.toJson),
        ("timestamp", .num f.timestamp)]

/-- `ProtocolFrame::deserialize`, modelled at the JSON-document level
(`serde_json::from_str` on the rendered text yields back the document). -/
def ProtocolFrame.deserialize (j : Json) : Option ProtocolFrame :=
  match j with
  | .obj [("version", .num v), ("session_id", sid), ("sequence", .num sq),
          ("message", mj), ("timestamp", .num ts)] =>
      match Json.toOptStr sid, Message.fromJson mj with
      | some session_id, some message =>
          some { version := v, session_id := session_id, sequence := sq,
                 message := message, timestamp := ts }
      | _, _ => none
  | _ => none

/-- Byte length of the serialized frame, as `self.serialize()?.len()`
computes it in `validate()` (UTF-8 bytes of the rendered JSON text). -/
def ProtocolFrame.serializedLen (f : ProtocolFrame) : Nat :=
  (Json.render f.serialize).utf8ByteSize

/-! ## Association-list model of `HashMap` -/

/-- `HashMap::get`: the value stored at a key. -/
def HMap.lookup {V : Type} (k : String) : List (String × V) → Option V
  | [] => none
  | (k2, v) :: rest => if k = k2 then some v else HMap.lookup k rest

/-- `HashMap::contains_key`. -/
def HMap.contains {V : Type} (k : String) (l : List (String × V)) : Bool :=
  (HMap.lookup k l).isSome

/-- `HashMap::insert`: replaces the value of an existing key in place,
appends a new entry otherwise. -/
def HMap.insert {V : Type} (k : String) (v : V) : List (String × V) → List (String × V)
  | [] => [(k, v)]
  | (k2, v2) :: rest =>
      if k = k2 then (k, v) :: rest else (k2, v2) :: HMap.insert k v rest

/-- `HashMap::remove` (dropping every entry of the key). -/
def HMap.erase {V : Type} (k : String) : List (String × V) → List (String × V)
  | [] => []
  | (k2, v2) :: rest =>
      if k = k2 then HMap.erase k rest else (k2, v2) :: HMap.erase k rest

/-- Update the value stored at a key in place (`HashMap::get_mut` followed by
a mutation); a missing key leaves the list unchanged. -/
def HMap.modify {V : Type} (k : String) (f : V → V) : List (String × V) → List (String × V)
  | [] => []
  | (k2, v) :: rest =>
      if k2 = k then (k2, f v) :: HMap.modify k f rest
      else (k2, v) :: HMap.modify k f rest

/-- The key list of an association list. -/
def HMap.keys {V : Type} (l : List (String × V)) : List String :=
  l.map Prod.fst

/-! ## Rooms, clients, errors -/

/-- `Room` from protocole.rs; `users` is the `client_id -> username` map and
`created_at` a `Nat` instant. -/
structure Room where
  id : RoomId
  name : String
  users : List (ClientId × String)
  created_at : Nat
deriving DecidableEq

/-- `Room::new`. -/
def Room.new (id : RoomId) (name : String) (now : Nat) : Room :=
  { id := id, name := name, users := [], created_at := now }

/-- `Room::add_user`. -/
def Room.add_user (r : Room) (client_id : ClientId) (username : String) : Room :=
  { r with users := HMap.insert client_id username r.users }

/-- `Room::remove_user`: the updated room and the removed username. -/
def Room.remove_user (r : Room) (client_id : ClientId) : Room × Option String :=
  ({ r with users := HMap.erase client_id r.users }, HMap.lookup client_id r.users)

/-- `Room::get_usernames`. -/
def Room.get_usernames (r : Room) : List String :=
  r.users.map Prod.snd

/-- `Room::user_count`. -/
def Room.user_count (r : Room) : Nat :=
  r.users.length

/-- `Client` from serveur.rs. -/
structure Client where
  id : ClientId
  username : Option String
  current_room : Option RoomId
  session_state : SessionState
  sequence_number : Nat
deriving DecidableEq

/-- `Client::new`. -/
def Client.new (id : ClientId) : Client :=
  { id := id, username := none, current_room := none,
    session_state := .Connected, sequence_number := 0 }

/-- `Client::next_sequence` (defined in serveur.rs but never called). -/
def Client.next_sequence (c : Client) : Client × Nat :=
  ({ c with sequence_number := c.sequence_number + 1 }, c.sequence_number + 1)

/-- The distinct error values produced by the server and codec, one
constructor per distinct error string / `format!` call site in the source;
`SrvErr.render` gives the corresponding text. -/
inductive SrvErr where
  | usernameTaken
  | alreadyAuthenticated (st : SessionState)
  | clientNotFound
  | notAuthenticated
  | roomNotFound
  | notInRoom
  | unwrapPanic
  | unsupportedVersion (v : Nat)
  | tooLarge (n : Nat)
  | clientNotFoundInternal
  | alreadyConnected (st : SessionState)
  | authRequired (st : SessionState)
  | roomRequired (st : SessionState)
  | unexpectedType (m : Message)
  | clientNotFoundH
  | notAuthenticatedH
  | notInRoomH
  | selfPrivate
  | recipientNotFound
  | senderNotFound
deriving DecidableEq

/-- Rust `Debug` rendering of a `SessionState` (string escaping inside the
quoted username/room is not reproduced; no claim depends on these texts). -/
def SessionState.debugStr : SessionState → String
  | .Connected => "Connected"
  | .Authenticated u => "Authenticated(\"" ++ u ++ "\")"
  | .InRoom u r => "InRoom(\"" ++ u ++ "\", \"" ++ r ++ "\")"
  | .Closed => "Closed"

/-- Abridged Rust `Debug` rendering of a `Message` (variant name only; the
full field rendering is immaterial to every claim). -/
def Message.debugStr : Message → String
  | .Connect _ => "Connect"
  | .JoinRoom _ => "JoinRoom"
  | .LeaveRoom => "LeaveRoom"
  | .SendMessage _ => "SendMessage"
  | .PrivateMessage _ _ => "PrivateMessage"
  | .ListRooms => "ListRooms"
  | .ListUsers => "ListUsers"
  | .Disconnect => "Disconnect"
  | .ConnectAck _ _ => "ConnectAck"
  | .ConnectError _ => "ConnectError"
  | .JoinRoomAck _ _ => "JoinRoomAck"
  | .JoinRoomError _ => "JoinRoomError"
  | .UserJoined _ _ => "UserJoined"
  | .UserLeft _ _ => "UserLeft"
  | .RoomMessage _ _ _ _ => "RoomMessage"
  | .PrivateMessageReceived _ _ _ => "PrivateMessageReceived"
  | .RoomList _ => "RoomList"
  | .UserList _ _ => "UserList"
  | .Error _ _ => "Error"
  | .Ping => "Ping"
  | .Pong => "Pong"

/-- The error texts of the source, per `SrvErr` constructor. -/
def SrvErr.render : SrvErr → String
  | .usernameTaken => "Nom d\x27utilisateur déjà pris"
  | .alreadyAuthenticated st =>
      "Action non autorisée. Client déjà dans l\x27état: " ++ st.debugStr
  | .clientNotFound => "Client non trouvé"
  | .notAuthenticated => "Client non authentifié"
  | .roomNotFound => "Salon inexistant"
  | .notInRoom => "Vous n\x27êtes pas dans un salon"
  | .unwrapPanic => "called Option::unwrap() on a None value"
  | .unsupportedVersion v => "Version de protocole non supportée: " ++ Nat.repr v
  | .tooLarge n =>
      "Message trop volumineux: " ++ Nat.repr n ++ " bytes (max: "
        ++ Nat.repr MAX_MESSAGE_SIZE ++ ")"
  | .clientNotFoundInternal => "Client not found in server state (internal error)"
  | .alreadyConnected st =>
      "Already connected or authenticated. Current state: " ++ st.debugStr
  | .authRequired st =>
      "Authentication required for this action. Current state: " ++ st.debugStr
  | .roomRequired st => "Requires being in a room. Current state: " ++ st.debugStr
  | .unexpectedType m =>
      "Unexpected message type received from client: " ++ m.debugStr
  | .clientNotFoundH => "Client not found"
  | .notAuthenticatedH => "Client not authenticated"
  | .notInRoomH => "Client not in a room"
  | .selfPrivate => "You cannot send a private message to yourself."
  | .recipientNotFound => "Utilisateur destinataire non trouvé"
  | .senderNotFound => "Unable to send message: Sender not found"

/-- `ProtocolFrame::validate`: version check, then encoded-size check
(serialization of this data can never fail, so that error path is absent). -/
def ProtocolFrame.validate (f : ProtocolFrame) : Except SrvErr Unit :=
  if f.version ≠ PROTOCOL_VERSION then .error (.unsupportedVersion f.version)
  else if f.serializedLen > MAX_MESSAGE_SIZE then .error (.tooLarge f.serializedLen)
  else .ok ()

/-! ## Server state and directory operations -/

/-- `ServerState` from serveur.rs. A client's mpsc sender is modelled by the
queue of frames enqueued to it, in enqueue order. -/
structure ServerState where
  clients : List (ClientId × Client)
  rooms : List (RoomId × Room)
  username_to_client : List (String × ClientId)
  client_senders : List (ClientId × List ProtocolFrame)
deriving DecidableEq

/-- `ServerState::new`: empty directory plus the three default rooms. -/
def ServerState.new (now : Nat) : ServerState :=
  { clients := [], username_to_client := [], client_senders := [],
    rooms :=
      HMap.insert "random" (Room.new "random" "Discussions Libres" now)
        (HMap.insert "tech" (Room.new "tech" "Discussions Tech" now)
          (HMap.insert "general" (Room.new "general" "Salon Général" now) [])) }

/-- `ServerState::add_client`: a fresh `Connected` session and an empty
outbound queue. -/
def ServerState.add_client (s : ServerState) (client_id : ClientId) : ServerState :=
  { s with clients := HMap.insert client_id (Client.new client_id) s.clients,
           client_senders := HMap.insert client_id [] s.client_senders }

/-- `sender.send(frame)`: append a frame to one client's outbound queue
(no-op when the sender is gone). -/
def ServerState.enqueue_frame (s : ServerState) (client_id : ClientId)
    (frame : ProtocolFrame) : ServerState :=
  { s with client_senders :=
      HMap.modify client_id (fun q => q ++ [frame]) s.client_senders }

/-- `ServerState::send_message_to_client`: wrap the message in a frame with
the client id as session id and sequence `0`, and enqueue it if the client
still has a sender. -/
def ServerState.send_message_to_client (s : ServerState) (client_id : ClientId)
    (message : Message) (now : Nat) : ServerState :=
  match HMap.lookup client_id s.client_senders with
  | some _ => s.enqueue_frame client_id (ProtocolFrame.new message (some client_id) 0 now)
  | none => s

/-- One step of the broadcast loop body of `ServerState::broadcast_to_room`:
skip the excluded client, otherwise enqueue a copy of the frame if the
member still has a sender. -/
def ServerState.deliver_step (frame : ProtocolFrame) (exclude : Option ClientId)
    (acc : ServerState) (member : ClientId × String) : ServerState :=
  if exclude = some member.1 then acc
  else if HMap.contains member.1 acc.client_senders then
    acc.enqueue_frame member.1 frame
  else acc

/-- `ServerState::broadcast_to_room`: iterate over the room's membership;
an unknown room is a silent no-op. -/
def ServerState.broadcast_to_room (s : ServerState) (room_id : RoomId)
    (frame : ProtocolFrame) (exclude : Option ClientId) : ServerState :=
  match HMap.lookup room_id s.rooms with
  | some room => room.users.foldl (ServerState.deliver_step frame exclude) s
  | none => s

/-- `ServerState::authenticate_client`. The Rust method mutates `self` and
returns `Result<(), String>`; the model returns the (possibly unchanged)
state paired with the result. -/
def ServerState.authenticate_client (s : ServerState) (client_id : ClientId)
    (username : String) : ServerState × Except SrvErr Unit :=
  if HMap.contains username s.username_to_client then
    (s, .error .usernameTaken)
  else
    match HMap.lookup client_id s.clients with
    | some client =>
        if client.session_state ≠ .Connected then
          (s, .error (.alreadyAuthenticated client.session_state))
        else
          let client2 := { client with username := some username,
                                       session_state := .Authenticated username }
          ({ s with clients := HMap.insert client_id client2 s.clients,
                    username_to_client :=
                      HMap.insert username client_id s.username_to_client },
           .ok ())
    | none => (s, .error .clientNotFound)

/-- `ServerState::join_room`. Checks client, authentication and room
existence, then leaves the current room (removing membership and
broadcasting `UserLeft` to the old room, excluding the mover) before
admitting to the new room; returns the new room's usernames. The final
`self.rooms.get_mut(room_id).unwrap()` of the source is the `unwrapPanic`
branch (unreachable: room existence was checked and preserved). -/
def ServerState.join_room (s : ServerState) (client_id : ClientId)
    (room_id : RoomId) (now : Nat) : ServerState × Except SrvErr (List String) :=
  match HMap.lookup client_id s.clients with
  | none => (s, .error .clientNotFound)
  | some client =>
    match client.username with
    | none => (s, .error .notAuthenticated)
    | some username =>
      if HMap.contains room_id s.rooms then
        let step1 : ServerState × Client :=
          match client.current_room with
          | some old_room_id =>
              let client1 := { client with current_room := none }
              let s1 := { s with clients := HMap.insert client_id client1 s.clients }
              match HMap.lookup old_room_id s1.rooms with
              | some old_room =>
                  let old2 := (old_room.remove_user client_id).1
                  let s2 := { s1 with rooms := HMap.insert old_room_id old2 s1.rooms }
                  let frame :=
                    ProtocolFrame.new (.UserLeft username old_room_id) none 0 now
                  (s2.broadcast_to_room old_room_id frame (some client_id), client1)
              | none => (s1, client1)
          | none => (s, client)
        let client2 := { step1.2 with current_room := some room_id,
                                      session_state := .InRoom username room_id }
        let s3 := { step1.1 with clients := HMap.insert client_id client2 step1.1.clients }
        match HMap.lookup room_id s3.rooms with
        | some room =>
            let room2 := room.add_user client_id username
            ({ s3 with rooms := HMap.insert room_id room2 s3.rooms },
             .ok room2.get_usernames)
        | none => (s3, .error .unwrapPanic)
      else (s, .error .roomNotFound)

/-- `ServerState::leave_room`: revert to `Authenticated`, drop membership,
broadcast `UserLeft` to the old room excluding the leaver. -/
def ServerState.leave_room (s : ServerState) (client_id : ClientId) (now : Nat) :
    ServerState × Except SrvErr Unit :=
  match HMap.lookup client_id s.clients with
  | none => (s, .error .clientNotFound)
  | some client =>
    match client.username with
    | none => (s, .error .notAuthenticated)
    | some username =>
      match client.current_room with
      | some room_id =>
          let client1 := { client with current_room := none,
                                       session_state := .Authenticated username }
          let s1 := { s with clients := HMap.insert client_id client1 s.clients }
          let s2 :=
            match HMap.lookup room_id s1.rooms with
            | some room =>
                { s1 with rooms :=
                    HMap.insert room_id (room.remove_user client_id).1 s1.rooms }
            | none => s1
          let frame := ProtocolFrame.new (.UserLeft username room_id) none 0 now
          (s2.broadcast_to_room room_id frame (some client_id), .ok ())
      | none => (s, .error .notInRoom)

/-- `ServerState::remove_client`: drop the username registry entry, drop room
membership (broadcasting `UserLeft` when a membership entry was actually
removed), then erase the session and its sender. -/
def ServerState.remove_client (s : ServerState) (client_id : ClientId) (now : Nat) :
    ServerState :=
  let s1 :=
    match HMap.lookup client_id s.clients with
    | some client =>
        let sA :=
          match client.username with
          | some username =>
              { s with username_to_client := HMap.erase username s.username_to_client }
          | none => s
        match client.current_room with
        | some room_id =>
            match HMap.lookup room_id sA.rooms with
            | some room =>
                let removed := (room.remove_user client_id).2
                let room2 := (room.remove_user client_id).1
                let sB := { sA with rooms := HMap.insert room_id room2 sA.rooms }
                match removed with
                | some _ =>
                    let uname := client.username.getD "un client anonyme"
                    let frame :=
                      ProtocolFrame.new (.UserLeft uname room_id) none 0 now
                    sB.broadcast_to_room room_id frame (some client_id)
                | none => sB
            | none => sA
        | none => sA
    | none => s
  { s1 with clients := HMap.erase client_id s1.clients,
            client_senders := HMap.erase client_id s1.client_senders }

/-- `ServerState::send_private_message`: look up the recipient in the
username registry and enqueue a `PrivateMessageReceived` frame to it. -/
def ServerState.send_private_message (s : ServerState)
    (from_username to_username content : String) (now : Nat) :
    ServerState × Except SrvErr Unit :=
  match HMap.lookup to_username s.username_to_client with
  | none => (s, .error .recipientNotFound)
  | some to_client_id =>
      if HMap.contains to_client_id s.client_senders then
        let message := Message.PrivateMessageReceived from_username content now
        let frame := ProtocolFrame.new message (some to_client_id) 0 now
        (s.enqueue_frame to_client_id frame, .ok ())
      else (s, .error .senderNotFound)

/-! ## ChatServer handlers -/

/-- `ChatServer::handle_connect`: authenticate, then send `ConnectAck` on
success or `ConnectError` (carrying the error text) on failure. -/
def ChatServer.handle_connect (s : ServerState) (client_id : ClientId)
    (username : String) (now : Nat) : ServerState × Except SrvErr Unit :=
  match s.authenticate_client client_id username with
  | (s1, .ok _) =>
      let response := Message.ConnectAck client_id ("Bienvenue, " ++ username ++ " !")
      (s1.send_message_to_client client_id response now, .ok ())
  | (s1, .error e) =>
      (s1.send_message_to_client client_id (.ConnectError e.render) now, .error e)

/-- `ChatServer::handle_join_room`: join, then send `JoinRoomAck` to the
mover and broadcast `UserJoined` to the room excluding the mover; on
failure send `JoinRoomError` (carrying the error text). -/
def ChatServer.handle_join_room (s : ServerState) (client_id : ClientId)
    (room_id : RoomId) (now : Nat) : ServerState × Except SrvErr Unit :=
  match s.join_room client_id room_id now with
  | (s1, .ok users_in_room) =>
      let response := Message.JoinRoomAck room_id users_in_room
      let s2 := s1.send_message_to_client client_id response now
      match HMap.lookup client_id s2.clients with
      | some client =>
          match client.username with
          | some username =>
              let frame := ProtocolFrame.new (.UserJoined username room_id) none 0 now
              (s2.broadcast_to_room room_id frame (some client_id), .ok ())
          | none => (s2, .ok ())
      | none => (s2, .ok ())
  | (s1, .error e) =>
      (s1.send_message_to_client client_id (.JoinRoomError e.render) now, .error e)

/-- `ChatServer::handle_leave_room`: leave; on failure send
`Error(InvalidState)` carrying the error text. -/
def ChatServer.handle_leave_room (s : ServerState) (client_id : ClientId)
    (now : Nat) : ServerState × Except SrvErr Unit :=
  match s.leave_room client_id now with
  | (s1, .ok _) => (s1, .ok ())
  | (s1, .error e) =>
      (s1.send_message_to_client client_id (.Error .InvalidState e.render) now, .error e)

/-- `ChatServer::handle_send_message`: wrap the content in a `RoomMessage`
and broadcast it to the sender's room with no excluded client. -/
def ChatServer.handle_send_message (s : ServerState) (client_id : ClientId)
    (content : String) (now : Nat) : ServerState × Except SrvErr Unit :=
  match HMap.lookup client_id s.clients with
  | none => (s, .error .clientNotFoundH)
  | some client =>
    match client.username with
    | none => (s, .error .notAuthenticatedH)
    | some username =>
      match client.current_room with
      | none => (s, .error .notInRoomH)
      | some room_id =>
          let message := Message.RoomMessage username content now room_id
          let frame := ProtocolFrame.new message none 0 now
          (s.broadcast_to_room room_id frame none, .ok ())

/-- `ChatServer::handle_private_message`: reject self-targeting with
`Error(InvalidState)`, otherwise deliver via `send_private_message`,
reporting failures as `Error(UserNotFound)`. -/
def ChatServer.handle_private_message (s : ServerState) (client_id : ClientId)
    (target_user content : String) (now : Nat) : ServerState × Except SrvErr Unit :=
  match HMap.lookup client_id s.clients with
  | none => (s, .error .clientNotFoundH)
  | some client =>
    match client.username with
    | none => (s, .error .notAuthenticatedH)
    | some username =>
      if username = target_user then
        let e := SrvErr.selfPrivate
        (s.send_message_to_client client_id (.Error .InvalidState e.render) now, .error e)
      else
        match s.send_private_message username target_user content now with
        | (s1, .ok _) => (s1, .ok ())
        | (s1, .error e) =>
            (s1.send_message_to_client client_id (.Error .UserNotFound e.render) now,
             .error e)

/-- `ChatServer::handle_list_rooms`: send the room map as
`room_id -> user_count`. -/
def ChatServer.handle_list_rooms (s : ServerState) (client_id : ClientId)
    (now : Nat) : ServerState × Except SrvErr Unit :=
  let rooms := s.rooms.map fun p => (p.1, p.2.user_count)
  (s.send_message_to_client client_id (.RoomList rooms) now, .ok ())

/-- `ChatServer::handle_list_users`: send the current room's usernames, or
`Error(InternalError)` when the recorded room is missing. -/
def ChatServer.handle_list_users (s : ServerState) (client_id : ClientId)
    (now : Nat) : ServerState × Except SrvErr Unit :=
  match HMap.lookup client_id s.clients with
  | none => (s, .error .clientNotFoundH)
  | some client =>
    match client.current_room with
    | none => (s, .error .notInRoomH)
    | some room_id =>
      match HMap.lookup room_id s.rooms with
      | some room =>
          (s.send_message_to_client client_id
            (.UserList room.get_usernames room_id) now, .ok ())
      | none =>
          (s.send_message_to_client client_id
            (.Error .InternalError "Room not found for user list.") now, .ok ())

/-- `ChatServer::handle_ping`: reply `Pong`. -/
def ChatServer.handle_ping (s : ServerState) (client_id : ClientId) (now : Nat) :
    ServerState × Except SrvErr Unit :=
  (s.send_message_to_client client_id .Pong now, .ok ())

/-- The precondition block of `ChatServer::process_message`: `Connect` is
allowed only in the `Connected` state; every other message must satisfy its
`requires_auth`/`requires_room` preconditions. -/
def ChatServer.precheck (m : Message) (st : SessionState) : Except SrvErr Unit :=
  match m with
  | .Connect _ =>
      if st = .Connected then .ok () else .error (.alreadyConnected st)
  | _ =>
      if m.requires_auth && !st.isAuthedOrInRoom then .error (.authRequired st)
      else if m.requires_room && !st.isInRoom then .error (.roomRequired st)
      else .ok ()

/-- The dispatch block of `ChatServer::process_message`: route the message
to its handler; server-to-client messages received from a client yield
`Error(InvalidFormat)`. -/
def ChatServer.dispatch (s : ServerState) (m : Message) (client_id : ClientId)
    (now : Nat) : ServerState × Except SrvErr Unit :=
  match m with
  | .Connect username => ChatServer.handle_connect s client_id username now
  | .JoinRoom room_id => ChatServer.handle_join_room s client_id room_id now
  | .LeaveRoom => ChatServer.handle_leave_room s client_id now
  | .SendMessage content => ChatServer.handle_send_message s client_id content now
  | .PrivateMessage target_user content =>
      ChatServer.handle_private_message s client_id target_user content now
  | .ListRooms => ChatServer.handle_list_rooms s client_id now
  | .ListUsers => ChatServer.handle_list_users s client_id now
  | .Disconnect => (s, .ok ())
  | .Ping => ChatServer.handle_ping s client_id now
  | m2 =>
      let e := SrvErr.unexpectedType m2
      (s.send_message_to_client client_id (.Error .InvalidFormat e.render) now, .error e)

/-- `ChatServer::process_message`: validate the frame, look up the session,
run the precondition block (sending `Error(InvalidState)` and aborting the
request on failure), then dispatch. -/
def ChatServer.process_message (s : ServerState) (frame : ProtocolFrame)
    (client_id : ClientId) (now : Nat) : ServerState × Except SrvErr Unit :=
  match frame.validate with
  | .error e => (s, .error e)
  | .ok _ =>
    match HMap.lookup client_id s.clients with
    | none => (s, .error .clientNotFoundInternal)
    | some current_client =>
      match ChatServer.precheck frame.message current_client.session_state with
      | .error e =>
          (s.send_message_to_client client_id (.Error .InvalidState e.render) now,
           .error e)
      | .ok _ => ChatServer.dispatch s frame.message client_id now

/-! ## Reference client command encoder (client.rs) -/

/-- `ClientLocalState` from client.rs. -/
structure ClientLocalState where
  id : Option ClientId
  username : Option String
  current_room : Option RoomId
  session_state : SessionState
deriving DecidableEq

/-- `ClientCommand` from client.rs. -/
inductive ClientCommand where
  | Connect (username : String)
  | JoinRoom (room_id : String)
  | LeaveRoom
  | SendMessage (content : String)
  | PrivateMessage (target_user : String) (content : String)
  | ListRooms
  | ListUsers
  | Disconnect
  | Ping
deriving DecidableEq

/-- `process_client_command` from client.rs: every outgoing client frame is
built with sequence `0` and the mirrored session id. -/
def process_client_command (command : ClientCommand)
    (client_state : ClientLocalState) (now : Nat) : ProtocolFrame :=
  let message : Message :=
    match command with
    | .Connect username => .Connect username
    | .JoinRoom room_id => .JoinRoom room_id
    | .LeaveRoom => .LeaveRoom
    | .SendMessage content => .SendMessage content
    | .PrivateMessage target_user content => .PrivateMessage target_user content
    | .ListRooms => .ListRooms
    | .ListUsers => .ListUsers
    | .Disconnect => .Disconnect
    | .Ping => .Ping
  ProtocolFrame.new message client_state.id 0 now

/-! ## Association-list lemmas -/

theorem HMap.lookup_insert {V : Type} (k k2 : String) (v : V) (l : List (String × V)) :
    HMap.lookup k2 (HMap.insert k v l) = if k2 = k then some v else HMap.lookup k2 l := by
  induction l with
  | nil => simp [HMap.insert, HMap.lookup]
  | cons p rest ih =>
      obtain ⟨a, b⟩ := p
      by_cases h1 : k = a
      · subst h1
        by_cases h2 : k2 = k <;> simp [HMap.insert, HMap.lookup, h2]
      · by_cases h2 : k2 = a
        · subst h2
          have h3 : ¬ k2 = k := fun h => h1 (h ▸ rfl)
          simp [HMap.insert, HMap.lookup, h1, h3]
        · simp [HMap.insert, HMap.lookup, h1, h2, ih]

theorem HMap.lookup_erase {V : Type} (k k2 : String) (l : List (String × V)) :
    HMap.lookup k2 (HMap.erase k l) = if k2 = k then none else HMap.lookup k2 l := by
  induction l with
  | nil => simp [HMap.erase, HMap.lookup]
  | cons p rest ih =>
      obtain ⟨a, b⟩ := p
      by_cases h1 : k = a
      · subst h1
        by_cases h2 : k2 = k
        · subst h2
          simpa [HMap.erase, HMap.lookup] using ih
        · simp [HMap.erase, HMap.lookup, h2] at ih ⊢
          exact ih
      · by_cases h2 : k2 = a
        · subst h2
          have h3 : ¬ k2 = k := fun h => h1 (h ▸ rfl)
          simp [HMap.erase, HMap.lookup, h1, h3]
        · simp [HMap.erase, HMap.lookup, h1, h2, ih]

theorem HMap.lookup_modify {V : Type} (k k2 : String) (f : V → V)
    (l : List (String × V)) :
    HMap.lookup k2 (HMap.modify k f l) =
      if k2 = k then (HMap.lookup k2 l).map f else HMap.lookup k2 l := by
  induction l with
  | nil => simp [HMap.modify, HMap.lookup]
  | cons p rest ih =>
      obtain ⟨a, b⟩ := p
      by_cases h1 : a = k
      · subst h1
        by_cases h2 : k2 = a
        · subst h2
          simp [HMap.modify, HMap.lookup]
        · simp [HMap.modify, HMap.lookup, h2] at ih ⊢
          exact ih
      · by_cases h2 : k2 = a
        · subst h2
          have h3 : ¬ k2 = k := fun h => h1 h
          simp [HMap.modify, HMap.lookup, h1, h3]
        · simp [HMap.modify, HMap.lookup, h1, h2, ih]

theorem HMap.mem_keys_iff {V : Type} (k : String) (l : List (String × V)) :
    k ∈ HMap.keys l ↔ (HMap.lookup k l).isSome := by
  induction l with
  | nil => simp [HMap.keys, HMap.lookup]
  | cons p rest ih =>
      obtain ⟨a, b⟩ := p
      by_cases h : k = a <;> simp [HMap.keys, HMap.lookup, h] at ih ⊢ <;> simpa [HMap.keys] using ih

theorem HMap.keys_modify {V : Type} (k : String) (f : V → V) (l : List (String × V)) :
    HMap.keys (HMap.modify k f l) = HMap.keys l := by
  induction l with
  | nil => rfl
  | cons p rest ih =>
      obtain ⟨a, b⟩ := p
      by_cases h : a = k <;> simp [HMap.keys, HMap.modify, h] at ih ⊢ <;> exact ih

theorem HMap.keys_erase_sublist {V : Type} (k : String) (l : List (String × V)) :
    (HMap.keys (HMap.erase k l)).Sublist (HMap.keys l) := by
  induction l with
  | nil => simp [HMap.erase, HMap.keys]
  | cons p rest ih =>
      obtain ⟨a, b⟩ := p
      by_cases h : k = a
      · simpa [HMap.erase, HMap.keys, h] using ih.cons a
      · simpa [HMap.erase, HMap.keys, h] using ih.cons₂ a

theorem HMap.nodup_keys_erase {V : Type} (k : String) (l : List (String × V))
    (h : (HMap.keys l).Nodup) : (HMap.keys (HMap.erase k l)).Nodup :=
  (HMap.keys_erase_sublist k l).nodup h

theorem HMap.keys_cons {V : Type} (a : String) (b : V) (rest : List (String × V)) :
    HMap.keys ((a, b) :: rest) = a :: HMap.keys rest := rfl

theorem HMap.nodup_keys_insert {V : Type} (k : String) (v : V) (l : List (String × V))
    (h : (HMap.keys l).Nodup) : (HMap.keys (HMap.insert k v l)).Nodup := by
  induction l with
  | nil => simp [HMap.insert, HMap.keys]
  | cons p rest ih =>
      obtain ⟨a, b⟩ := p
      rw [HMap.keys_cons, List.nodup_cons] at h
      by_cases h1 : k = a
      · subst h1
        rw [show HMap.insert k v ((k, b) :: rest) = (k, v) :: rest by simp [HMap.insert],
            HMap.keys_cons, List.nodup_cons]
        exact h
      · have h2 := ih h.2
        simp only [HMap.insert, if_neg h1, HMap.keys_cons, List.nodup_cons]
        refine ⟨fun hmem => ?_, h2⟩
        have h4 : (HMap.lookup a (HMap.insert k v rest)).isSome :=
          (HMap.mem_keys_iff a _).mp hmem
        rw [HMap.lookup_insert] at h4
        have h5 : ¬ a = k := fun hh => h1 (hh ▸ rfl)
        rw [if_neg h5] at h4
        exact h.1 ((HMap.mem_keys_iff a rest).mpr h4)

theorem HMap.count_keys_of_lookup_some {V : Type} (k : String) (v : V)
    (l : List (String × V)) (hnd : (HMap.keys l).Nodup)
    (h : HMap.lookup k l = some v) : (HMap.keys l).count k = 1 := by
  have hmem : k ∈ HMap.keys l := (HMap.mem_keys_iff k l).mpr (by simp [h])
  exact List.count_eq_one_of_mem hnd hmem

theorem HMap.count_keys_of_lookup_none {V : Type} (k : String)
    (l : List (String × V)) (h : HMap.lookup k l = none) :
    (HMap.keys l).count k = 0 := by
  rw [List.count_eq_zero]
  intro hmem
  have := (HMap.mem_keys_iff k l).mp hmem
  simp [h] at this

theorem HMap.contains_insert {V : Type} (k k2 : String) (v : V) (l : List (String × V)) :
    HMap.contains k2 (HMap.insert k v l) = (k2 = k || HMap.contains k2 l) := by
  by_cases h : k2 = k <;> simp [HMap.contains, HMap.lookup_insert, h]

theorem HMap.keys_cons_fst {V : Type} (p : String × V) (rest : List (String × V)) :
    HMap.keys (p :: rest) = p.1 :: HMap.keys rest := rfl

/-! ## Structural lemmas about delivery and broadcast -/

theorem ServerState.enqueue_clients (s : ServerState) (cid : ClientId)
    (fr : ProtocolFrame) : (s.enqueue_frame cid fr).clients = s.clients := rfl

theorem ServerState.enqueue_rooms (s : ServerState) (cid : ClientId)
    (fr : ProtocolFrame) : (s.enqueue_frame cid fr).rooms = s.rooms := rfl

theorem ServerState.enqueue_registry (s : ServerState) (cid : ClientId)
    (fr : ProtocolFrame) :
    (s.enqueue_frame cid fr).username_to_client = s.username_to_client := rfl

theorem ServerState.deliver_step_clients (frame : ProtocolFrame)
    (exclude : Option ClientId) (acc : ServerState) (member : ClientId × String) :
    (ServerState.deliver_step frame exclude acc member).clients = acc.clients := by
  unfold ServerState.deliver_step
  split
  · rfl
  · split <;> rfl

theorem ServerState.deliver_step_rooms (frame : ProtocolFrame)
    (exclude : Option ClientId) (acc : ServerState) (member : ClientId × String) :
    (ServerState.deliver_step frame exclude acc member).rooms = acc.rooms := by
  unfold ServerState.deliver_step
  split
  · rfl
  · split <;> rfl

theorem ServerState.deliver_step_registry (frame : ProtocolFrame)
    (exclude : Option ClientId) (acc : ServerState) (member : ClientId × String) :
    (ServerState.deliver_step frame exclude acc member).username_to_client =
      acc.username_to_client := by
  unfold ServerState.deliver_step
  split
  · rfl
  · split <;> rfl

theorem ServerState.deliver_step_lookup (frame : ProtocolFrame)
    (exclude : Option ClientId) (acc : ServerState) (member : ClientId × String)
    (c : ClientId) :
    HMap.lookup c (ServerState.deliver_step frame exclude acc member).client_senders =
      if member.1 = c ∧ ¬ exclude = some member.1
          ∧ (HMap.lookup c acc.client_senders).isSome then
        (HMap.lookup c acc.client_senders).map (fun q => q ++ [frame])
      else HMap.lookup c acc.client_senders := by
  unfold ServerState.deliver_step
  by_cases hex : exclude = some member.1
  · simp [hex]
  · by_cases hc : member.1 = c
    · subst hc
      by_cases hs : (HMap.lookup member.1 acc.client_senders).isSome
      · simp [hex, hs, HMap.contains, ServerState.enqueue_frame, HMap.lookup_modify]
      · simp [hex, hs, HMap.contains]
    · by_cases hs : HMap.contains member.1 acc.client_senders
      · have h2 : ¬ c = member.1 := fun h => hc (h ▸ rfl)
        simp [hex, hs, hc, ServerState.enqueue_frame, HMap.lookup_modify, h2]
      · simp [hex, hs, hc]

theorem ServerState.foldl_deliver_clients (frame : ProtocolFrame)
    (exclude : Option ClientId) (users : List (ClientId × String)) (s : ServerState) :
    (users.foldl (ServerState.deliver_step frame exclude) s).clients = s.clients := by
  induction users generalizing s with
  | nil => rfl
  | cons p rest ih =>
      rw [List.foldl_cons, ih, ServerState.deliver_step_clients]

theorem ServerState.foldl_deliver_rooms (frame : ProtocolFrame)
    (exclude : Option ClientId) (users : List (ClientId × String)) (s : ServerState) :
    (users.foldl (ServerState.deliver_step frame exclude) s).rooms = s.rooms := by
  induction users generalizing s with
  | nil => rfl
  | cons p rest ih =>
      rw [List.foldl_cons, ih, ServerState.deliver_step_rooms]

theorem ServerState.foldl_deliver_registry (frame : ProtocolFrame)
    (exclude : Option ClientId) (users : List (ClientId × String)) (s : ServerState) :
    (users.foldl (ServerState.deliver_step frame exclude) s).username_to_client =
      s.username_to_client := by
  induction users generalizing s with
  | nil => rfl
  | cons p rest ih =>
      rw [List.foldl_cons, ih, ServerState.deliver_step_registry]

theorem ServerState.foldl_deliver_lookup (frame : ProtocolFrame)
    (exclude : Option ClientId) (users : List (ClientId × String)) (s : ServerState)
    (c : ClientId) (hnd : (HMap.keys users).Nodup) :
    HMap.lookup c ((users.foldl (ServerState.deliver_step frame exclude) s).client_senders) =
      if c ∈ HMap.keys users ∧ ¬ exclude = some c
          ∧ (HMap.lookup c s.client_senders).isSome then
        (HMap.lookup c s.client_senders).map (fun q => q ++ [frame])
      else HMap.lookup c s.client_senders := by
  induction users generalizing s with
  | nil => simp [HMap.keys]
  | cons m rest ih =>
      rw [HMap.keys_cons_fst, List.nodup_cons] at hnd
      rw [List.foldl_cons]
      rw [ih _ hnd.2]
      by_cases hc : m.1 = c
      · subst hc
        have hnotin : m.1 ∉ HMap.keys rest := hnd.1
        rw [ServerState.deliver_step_lookup]
        by_cases hex : exclude = some m.1
        · simp [hex, hnotin, HMap.keys_cons_fst]
        · by_cases hs : (HMap.lookup m.1 s.client_senders).isSome
          · simp [hex, hs, hnotin, HMap.keys_cons_fst, Option.isSome_map]
          · simp [hex, hs, hnotin, HMap.keys_cons_fst]
      · have heq : HMap.lookup c (ServerState.deliver_step frame exclude s m).client_senders
            = HMap.lookup c s.client_senders := by
          rw [ServerState.deliver_step_lookup]
          simp [hc]
        rw [heq]
        have hmem : (c ∈ HMap.keys (m :: rest)) ↔ (c ∈ HMap.keys rest) := by
          rw [HMap.keys_cons_fst]
          simp [List.mem_cons]
          intro h
          exact absurd h.symm hc
        by_cases hmem2 : c ∈ HMap.keys rest
        · simp [hmem2, hmem.mpr hmem2]
        · have : ¬ c ∈ HMap.keys (m :: rest) := fun h => hmem2 (hmem.mp h)
          simp [hmem2, this]

theorem ServerState.broadcast_clients (s : ServerState) (room_id : RoomId)
    (frame : ProtocolFrame) (exclude : Option ClientId) :
    (s.broadcast_to_room room_id frame exclude).clients = s.clients := by
  unfold ServerState.broadcast_to_room
  cases HMap.lookup room_id s.rooms with
  | none => rfl
  | some room => exact ServerState.foldl_deliver_clients _ _ _ _

theorem ServerState.broadcast_rooms (s : ServerState) (room_id : RoomId)
    (frame : ProtocolFrame) (exclude : Option ClientId) :
    (s.broadcast_to_room room_id frame exclude).rooms = s.rooms := by
  unfold ServerState.broadcast_to_room
  cases HMap.lookup room_id s.rooms with
  | none => rfl
  | some room => exact ServerState.foldl_deliver_rooms _ _ _ _

theorem ServerState.broadcast_registry (s : ServerState) (room_id : RoomId)
    (frame : ProtocolFrame) (exclude : Option ClientId) :
    (s.broadcast_to_room room_id frame exclude).username_to_client =
      s.username_to_client := by
  unfold ServerState.broadcast_to_room
  cases HMap.lookup room_id s.rooms with
  | none => rfl
  | some room => exact ServerState.foldl_deliver_registry _ _ _ _

theorem ServerState.broadcast_lookup (s : ServerState) (room_id : RoomId)
    (frame : ProtocolFrame) (exclude : Option ClientId) (c : ClientId) (room : Room)
    (hroom : HMap.lookup room_id s.rooms = some room)
    (hnd : (HMap.keys room.users).Nodup) :
    HMap.lookup c (s.broadcast_to_room room_id frame exclude).client_senders =
      if c ∈ HMap.keys room.users ∧ ¬ exclude = some c
          ∧ (HMap.lookup c s.client_senders).isSome then
        (HMap.lookup c s.client_senders).map (fun q => q ++ [frame])
      else HMap.lookup c s.client_senders := by
  unfold ServerState.broadcast_to_room
  rw [hroom]
  exact ServerState.foldl_deliver_lookup frame exclude room.users s c hnd

theorem ServerState.send_clients (s : ServerState) (cid : ClientId) (m : Message)
    (now : Nat) : (s.send_message_to_client cid m now).clients = s.clients := by
  unfold ServerState.send_message_to_client
  cases HMap.lookup cid s.client_senders <;> rfl

theorem ServerState.send_rooms (s : ServerState) (cid : ClientId) (m : Message)
    (now : Nat) : (s.send_message_to_client cid m now).rooms = s.rooms := by
  unfold ServerState.send_message_to_client
  cases HMap.lookup cid s.client_senders <;> rfl

theorem ServerState.send_registry (s : ServerState) (cid : ClientId) (m : Message)
    (now : Nat) :
    (s.send_message_to_client cid m now).username_to_client = s.username_to_client := by
  unfold ServerState.send_message_to_client
  cases HMap.lookup cid s.client_senders <;> rfl

theorem ServerState.send_lookup (s : ServerState) (cid : ClientId) (m : Message)
    (now : Nat) (c : ClientId) :
    HMap.lookup c (s.send_message_to_client cid m now).client_senders =
      if c = cid then
        (HMap.lookup c s.client_senders).map
          (fun q => q ++ [ProtocolFrame.new m (some cid) 0 now])
      else HMap.lookup c s.client_senders := by
  unfold ServerState.send_message_to_client
  cases h : HMap.lookup cid s.client_senders with
  | none =>
      by_cases hc : c = cid
      · subst hc
        simp [h]
      · simp [hc]
  | some q =>
      simp only [ServerState.enqueue_frame, HMap.lookup_modify]

/-! ## Codec round-trip -/

theorem Json.decodeStrList_map_str (xs : List String) :
    Json.decodeStrList (xs.map Json.str) = some xs := by
  induction xs with
  | nil => rfl
  | cons x rest ih => simp [Json.decodeStrList, ih]

theorem Json.decodeRoomCounts_map_num (xs : List (String × Nat)) :
    Json.decodeRoomCounts (xs.map fun p => (p.1, Json.num p.2)) = some xs := by
  induction xs with
  | nil => rfl
  | cons p rest ih =>
      obtain ⟨k, n⟩ := p
      simp [Json.decodeRoomCounts, ih]

theorem errorCode_json_roundtrip (c : ErrorCode) :
    ErrorCode.fromJson c.toJson = some c := by
  cases c <;> rfl

set_option maxHeartbeats 1000000 in
theorem message_json_roundtrip (m : Message) :
    Message.fromJson m.toJson = some m := by
  cases m <;>
    first
      | rfl
      | simp [Message.toJson, Message.fromJson, Message.fromJsonData,
              Json.decodeField1, Json.decodeField2, Json.decodeStrList_map_str,
              Json.decodeRoomCounts_map_num, errorCode_json_roundtrip]

/-- C5: Codec round-trip — deserializing the serialization of any
constructible `ProtocolFrame` (hence of any constructible `Message` wrapped
in a frame) succeeds and returns a frame equal to the original. -/
theorem protocol_frame_roundtrip (f : ProtocolFrame) :
    ProtocolFrame.deserialize f.serialize = some f := by
  obtain ⟨v, sid, sq, msg, ts⟩ := f
  cases sid <;>
    simp [ProtocolFrame.serialize, ProtocolFrame.deserialize, Json.ofOptStr,
          Json.toOptStr, message_json_roundtrip]

/-! ## Demo states for witnesses -/

/-- Fresh server with two registered (still unauthenticated) connections. -/
def demoBase : ServerState :=
  ((ServerState.new 0).add_client "c1").add_client "c2"

/-- `demoBase` after client c1 successfully connects as "alice". -/
def demoAlice : ServerState :=
  (ChatServer.handle_connect demoBase "c1" "alice" 1).1

/-! ## C6 -/

/-- A frame whose declared protocol version is 2, with a tiny payload. -/
def badVersionFrame : ProtocolFrame :=
  { version := 2, session_id := none, sequence := 0, message := .Ping, timestamp := 0 }

/-- C6 counterexample: a frame whose encoded length is at or below
`MAX_MESSAGE_SIZE` on which `validate` nevertheless fails (its declared
version differs from `PROTOCOL_VERSION`), refuting the claim's final clause
that every frame at or below the size limit passes `validate`. -/
theorem validate_small_frame_rejected :
    badVersionFrame.serializedLen ≤ MAX_MESSAGE_SIZE ∧
    badVersionFrame.validate = .error (.unsupportedVersion 2) := by
  constructor
  · decide
  · rfl

/-- C6 (amended): `validate` succeeds exactly on the frames whose declared
version equals `PROTOCOL_VERSION` and whose encoded size is at most
`MAX_MESSAGE_SIZE`; so it rejects every version mismatch and every oversize
frame, and accepts every right-version frame at or below the limit. -/
theorem validate_ok_iff (f : ProtocolFrame) :
    f.validate = .ok () ↔
      f.version = PROTOCOL_VERSION ∧ f.serializedLen ≤ MAX_MESSAGE_SIZE := by
  unfold ProtocolFrame.validate
  by_cases h1 : f.version = PROTOCOL_VERSION
  · by_cases h2 : f.serializedLen > MAX_MESSAGE_SIZE
    · simp [h1, h2]
      try omega
    · simp [h1, h2]
      try omega
  · simp [h1]

/-! ## C1 -/

/-- C1: while a username is present in the username registry (i.e. held by
some session), `authenticate_client` for any client with that username fails
with the username-taken error and returns the entire server state — in
particular the first session's record — unchanged. -/
theorem authenticate_taken_username_unchanged (s : ServerState) (cid : ClientId)
    (u : String) (h : HMap.contains u s.username_to_client = true) :
    s.authenticate_client cid u = (s, .error .usernameTaken) := by
  unfold ServerState.authenticate_client
  simp [h]

theorem authenticate_taken_username_unchanged_witness :
    HMap.contains "alice" demoAlice.username_to_client = true ∧
    demoAlice.authenticate_client "c2" "alice" = (demoAlice, .error .usernameTaken) :=
  ⟨by decide,
   authenticate_taken_username_unchanged demoAlice "c2" "alice" (by decide)⟩

/-! ## C3 -/

theorem handle_join_room_of_error (s s1 : ServerState) (cid : ClientId)
    (rid : RoomId) (now : Nat) (e : SrvErr)
    (h : s.join_room cid rid now = (s1, .error e)) :
    ChatServer.handle_join_room s cid rid now =
      (s1.send_message_to_client cid (.JoinRoomError e.render) now, .error e) := by
  unfold ChatServer.handle_join_room
  rw [h]

/-- C3: `JoinRoom` to a room id absent from the room registry fails for every
client: `join_room` returns an error with the state unchanged (sessions, room
memberships and the username registry are identical), and the handler answers
with a `JoinRoomError` response, touching nothing but the requester's
outbound queue. -/
theorem join_nonexistent_room_unchanged (s : ServerState) (cid : ClientId)
    (rid : RoomId) (now : Nat) (h : HMap.contains rid s.rooms = false) :
    ∃ e : SrvErr,
      s.join_room cid rid now = (s, .error e) ∧
      ChatServer.handle_join_room s cid rid now =
        (s.send_message_to_client cid (.JoinRoomError e.render) now, .error e) ∧
      (ChatServer.handle_join_room s cid rid now).1.clients = s.clients ∧
      (ChatServer.handle_join_room s cid rid now).1.rooms = s.rooms ∧
      (ChatServer.handle_join_room s cid rid now).1.username_to_client =
        s.username_to_client := by
  have hjoin : ∃ e : SrvErr, s.join_room cid rid now = (s, .error e) := by
    cases hc : HMap.lookup cid s.clients with
    | none => exact ⟨.clientNotFound, by simp [ServerState.join_room, hc]⟩
    | some client =>
      cases hu : client.username with
      | none => exact ⟨.notAuthenticated, by simp [ServerState.join_room, hc, hu]⟩
      | some u => exact ⟨.roomNotFound, by simp [ServerState.join_room, hc, hu, h]⟩
  obtain ⟨e, he⟩ := hjoin
  have hh := handle_join_room_of_error s s cid rid now e he
  exact ⟨e, he, hh, by rw [hh, ServerState.send_clients],
         by rw [hh, ServerState.send_rooms], by rw [hh, ServerState.send_registry]⟩

theorem join_nonexistent_room_unchanged_witness :
    ∃ e : SrvErr,
      demoAlice.join_room "c1" "nope" 3 = (demoAlice, .error e) ∧
      ChatServer.handle_join_room demoAlice "c1" "nope" 3 =
        (demoAlice.send_message_to_client "c1" (.JoinRoomError e.render) 3, .error e) ∧
      (ChatServer.handle_join_room demoAlice "c1" "nope" 3).1.clients =
        demoAlice.clients ∧
      (ChatServer.handle_join_room demoAlice "c1" "nope" 3).1.rooms =
        demoAlice.rooms ∧
      (ChatServer.handle_join_room demoAlice "c1" "nope" 3).1.username_to_client =
        demoAlice.username_to_client :=
  join_nonexistent_room_unchanged demoAlice "c1" "nope" 3 (by decide)

/-! ## C7 -/

theorem precheck_error_of_failed_precondition (m : Message) (st : SessionState)
    (h : (m.requires_auth = true ∧ st.isAuthedOrInRoom = false) ∨
         (m.requires_room = true ∧ st.isInRoom = false)) :
    ChatServer.precheck m st = .error (.authRequired st) ∨
    ChatServer.precheck m st = .error (.roomRequired st) := by
  rcases h with ⟨ha, hb⟩ | ⟨ha, hb⟩ <;> cases m <;> cases hst : st.isAuthedOrInRoom <;>
    simp_all [ChatServer.precheck, Message.requires_auth, Message.requires_room]

/-- C7: a message whose precondition fails (`requires_auth` while the session
is neither `Authenticated` nor `InRoom`, or `requires_room` while not
`InRoom`) is rejected by `process_message` with an `InvalidState` error frame
to the offender; sessions, rooms and the username registry are untouched and
no other client's outbound queue changes — in particular a `SendMessage` from
a client not in a room never reaches any room member's queue. -/
theorem process_message_precondition_rejected (s : ServerState)
    (frame : ProtocolFrame) (cid : ClientId) (now : Nat) (client : Client)
    (hv : frame.validate = .ok ())
    (hc : HMap.lookup cid s.clients = some client)
    (h : (frame.message.requires_auth = true ∧
            client.session_state.isAuthedOrInRoom = false) ∨
         (frame.message.requires_room = true ∧
            client.session_state.isInRoom = false)) :
    ∃ e : SrvErr,
      ChatServer.process_message s frame cid now =
        (s.send_message_to_client cid (.Error .InvalidState e.render) now, .error e) ∧
      (e = .authRequired client.session_state ∨
        e = .roomRequired client.session_state) ∧
      (ChatServer.process_message s frame cid now).1.clients = s.clients ∧
      (ChatServer.process_message s frame cid now).1.rooms = s.rooms ∧
      (ChatServer.process_message s frame cid now).1.username_to_client =
        s.username_to_client ∧
      ∀ c : ClientId, ¬ c = cid →
        HMap.lookup c (ChatServer.process_message s frame cid now).1.client_senders =
          HMap.lookup c s.client_senders := by
  have hpre := precheck_error_of_failed_precondition frame.message
    client.session_state h
  have main : ∀ e : SrvErr,
      ChatServer.precheck frame.message client.session_state = .error e →
      ChatServer.process_message s frame cid now =
        (s.send_message_to_client cid (.Error .InvalidState e.render) now, .error e) := by
    intro e hp
    simp [ChatServer.process_message, hv, hc, hp]
  rcases hpre with hp | hp <;>
  · have hres := main _ hp
    refine ⟨_, hres, by simp, ?_, ?_, ?_, ?_⟩
    · rw [hres, ServerState.send_clients]
    · rw [hres, ServerState.send_rooms]
    · rw [hres, ServerState.send_registry]
    · intro c hne
      rw [hres, ServerState.send_lookup]
      simp [hne]

/-- Frame used by the C7 witness: a `SendMessage` from a session that is
still merely `Connected`. -/
def strayChatFrame : ProtocolFrame :=
  ProtocolFrame.new (.SendMessage "hi") none 0 5

set_option maxRecDepth 100000 in
theorem process_message_precondition_rejected_witness :
    ∃ e : SrvErr,
      ChatServer.process_message demoAlice strayChatFrame "c2" 5 =
        (demoAlice.send_message_to_client "c2"
          (.Error .InvalidState e.render) 5, .error e) ∧
      (e = .authRequired (Client.new "c2").session_state ∨
        e = .roomRequired (Client.new "c2").session_state) ∧
      (ChatServer.process_message demoAlice strayChatFrame "c2" 5).1.clients =
        demoAlice.clients ∧
      (ChatServer.process_message demoAlice strayChatFrame "c2" 5).1.rooms =
        demoAlice.rooms ∧
      (ChatServer.process_message demoAlice strayChatFrame "c2" 5).1.username_to_client =
        demoAlice.username_to_client ∧
      ∀ c : ClientId, ¬ c = "c2" →
        HMap.lookup c
            (ChatServer.process_message demoAlice strayChatFrame "c2" 5).1.client_senders =
          HMap.lookup c demoAlice.client_senders :=
  process_message_precondition_rejected demoAlice strayChatFrame "c2" 5
    (Client.new "c2") (by rfl) (by rfl) (by decide)

/-! ## C8 -/

theorem authenticate_error_eq (s : ServerState) (cid : ClientId) (u : String)
    (e : SrvErr) (h : (s.authenticate_client cid u).2 = .error e) :
    s.authenticate_client cid u = (s, .error e) := by
  by_cases h1 : HMap.contains u s.username_to_client
  · simp [ServerState.authenticate_client, h1] at h ⊢
    exact h
  · cases hc : HMap.lookup cid s.clients with
    | none =>
        simp [ServerState.authenticate_client, h1, hc] at h ⊢
        exact h
    | some client =>
        by_cases hst : client.session_state = .Connected
        · simp [ServerState.authenticate_client, h1, hc, hst] at h
        · simp [ServerState.authenticate_client, h1, hc, hst] at h ⊢
          exact h

theorem join_room_isOk (s : ServerState) (cid : ClientId) (rid : RoomId)
    (now : Nat) (client : Client) (u : String)
    (hc : HMap.lookup cid s.clients = some client)
    (hu : client.username = some u)
    (hr : HMap.contains rid s.rooms = true) :
    ∃ users : List String, (s.join_room cid rid now).2 = .ok users := by
  obtain ⟨roomB, hB⟩ : ∃ r : Room, HMap.lookup rid s.rooms = some r := by
    cases hx : HMap.lookup rid s.rooms with
    | none => simp [HMap.contains, hx] at hr
    | some r => exact ⟨r, rfl⟩
  cases hcr : client.current_room with
  | none =>
      exact ⟨(roomB.add_user cid u).get_usernames,
        by simp [ServerState.join_room, hc, hu, hcr, hr, hB]⟩
  | some A =>
    cases hA : HMap.lookup A s.rooms with
    | none =>
        exact ⟨(roomB.add_user cid u).get_usernames,
          by simp [ServerState.join_room, hc, hu, hcr, hr, hA, hB]⟩
    | some roomA =>
        by_cases hAB : rid = A
        · subst hAB
          exact ⟨(((roomA.remove_user cid).1).add_user cid u).get_usernames,
            by simp [ServerState.join_room, hc, hu, hcr, hr, hA, hB,
                     ServerState.broadcast_rooms, HMap.lookup_insert]⟩
        · exact ⟨(roomB.add_user cid u).get_usernames,
            by simp [ServerState.join_room, hc, hu, hcr, hr, hA, hB, hAB,
                     ServerState.broadcast_rooms, HMap.lookup_insert]⟩

theorem join_room_error_eq (s : ServerState) (cid : ClientId) (rid : RoomId)
    (now : Nat) (e : SrvErr) (h : (s.join_room cid rid now).2 = .error e) :
    s.join_room cid rid now = (s, .error e) := by
  cases hc : HMap.lookup cid s.clients with
  | none =>
      simp [ServerState.join_room, hc] at h ⊢
      exact h
  | some client =>
    cases hu : client.username with
    | none =>
        simp [ServerState.join_room, hc, hu] at h ⊢
        exact h
    | some u =>
      by_cases hr : HMap.contains rid s.rooms
      · obtain ⟨users, hok⟩ := join_room_isOk s cid rid now client u hc hu hr
        rw [hok] at h
        exact absurd h (by simp)
      · simp only [Bool.not_eq_true] at hr
        simp [ServerState.join_room, hc, hu, hr] at h ⊢
        exact h

theorem leave_room_error_eq (s : ServerState) (cid : ClientId) (now : Nat)
    (e : SrvErr) (h : (s.leave_room cid now).2 = .error e) :
    s.leave_room cid now = (s, .error e) := by
  cases hc : HMap.lookup cid s.clients with
  | none =>
      simp [ServerState.leave_room, hc] at h ⊢
      exact h
  | some client =>
    cases hu : client.username with
    | none =>
        simp [ServerState.leave_room, hc, hu] at h ⊢
        exact h
    | some u =>
      cases hcr : client.current_room with
      | none =>
          simp [ServerState.leave_room, hc, hu, hcr] at h ⊢
          exact h
      | some rid => simp [ServerState.leave_room, hc, hu, hcr] at h

/-- The state reached when the second connection also claims "alice". -/
def rejectedConnectState : ServerState :=
  (ChatServer.handle_connect demoAlice "c2" "alice" 7).1

/-- Checks for the `Error` variant (the frame kind the claim says every
rejection produces). -/
def Message.isErrorMsg : Message → Bool
  | .Error _ _ => true
  | _ => false

/-- C8 counterexample: after a rejected `Connect` (username taken), the
offending client's queue holds exactly one frame, a `ConnectError` — not an
`Error` frame carrying an `ErrorCode` as the claim states: no `Error`-variant
frame is enqueued at all on this rejection path. -/
theorem rejected_connect_sends_no_error_frame :
    ((HMap.lookup "c2" rejectedConnectState.client_senders).getD []).map
        ProtocolFrame.message =
      [Message.ConnectError "Nom d\x27utilisateur déjà pris"] ∧
    ((HMap.lookup "c2" rejectedConnectState.client_senders).getD []).filter
        (fun f => f.message.isErrorMsg) = [] := by
  constructor
  · rfl
  · rfl

/-- C8 (amended): every rejected request sends exactly one error-indicating
frame to the offending client and leaves sessions, rooms and the username
registry unchanged — but the frame kind depends on the path: a rejected
`Connect` yields a `ConnectError` frame, a rejected `JoinRoom` a
`JoinRoomError` frame, and a rejected `LeaveRoom` an `Error(InvalidState)`
frame; the last conjunct shows each such response touches only the offending
client's queue, appending exactly one frame to it. -/
theorem rejected_request_one_frame_unchanged :
    (∀ (s : ServerState) (cid : ClientId) (u : String) (now : Nat) (e : SrvErr),
       (s.authenticate_client cid u).2 = .error e →
       (s.authenticate_client cid u).1 = s ∧
       ChatServer.handle_connect s cid u now =
         (s.send_message_to_client cid (.ConnectError e.render) now, .error e)) ∧
    (∀ (s : ServerState) (cid : ClientId) (rid : RoomId) (now : Nat) (e : SrvErr),
       (s.join_room cid rid now).2 = .error e →
       (s.join_room cid rid now).1 = s ∧
       ChatServer.handle_join_room s cid rid now =
         (s.send_message_to_client cid (.JoinRoomError e.render) now, .error e)) ∧
    (∀ (s : ServerState) (cid : ClientId) (now : Nat) (e : SrvErr),
       (s.leave_room cid now).2 = .error e →
       (s.leave_room cid now).1 = s ∧
       ChatServer.handle_leave_room s cid now =
         (s.send_message_to_client cid (.Error .InvalidState e.render) now, .error e)) ∧
    (∀ (s : ServerState) (cid : ClientId) (m : Message) (now : Nat),
       (s.send_message_to_client cid m now).clients = s.clients ∧
       (s.send_message_to_client cid m now).rooms = s.rooms ∧
       (s.send_message_to_client cid m now).username_to_client =
         s.username_to_client ∧
       (∀ c : ClientId, ¬ c = cid →
          HMap.lookup c (s.send_message_to_client cid m now).client_senders =
            HMap.lookup c s.client_senders) ∧
       HMap.lookup cid (s.send_message_to_client cid m now).client_senders =
         (HMap.lookup cid s.client_senders).map
           (fun q => q ++ [ProtocolFrame.new m (some cid) 0 now])) := by
  refine ⟨?_, ?_, ?_, ?_⟩
  · intro s cid u now e h
    have heq := authenticate_error_eq s cid u e h
    refine ⟨by rw [heq], ?_⟩
    unfold ChatServer.handle_connect
    rw [heq]
  · intro s cid rid now e h
    have heq := join_room_error_eq s cid rid now e h
    refine ⟨by rw [heq], ?_⟩
    unfold ChatServer.handle_join_room
    rw [heq]
  · intro s cid now e h
    have heq := leave_room_error_eq s cid now e h
    refine ⟨by rw [heq], ?_⟩
    unfold ChatServer.handle_leave_room
    rw [heq]
  · intro s cid m now
    refine ⟨ServerState.send_clients s cid m now, ServerState.send_rooms s cid m now,
            ServerState.send_registry s cid m now, ?_, ?_⟩
    · intro c hne
      rw [ServerState.send_lookup]
      simp [hne]
    · rw [ServerState.send_lookup]
      simp

theorem rejected_request_one_frame_unchanged_witness :
    ((demoAlice.authenticate_client "c2" "alice").1 = demoAlice ∧
      ChatServer.handle_connect demoAlice "c2" "alice" 7 =
        (demoAlice.send_message_to_client "c2"
          (.ConnectError (SrvErr.usernameTaken).render) 7, .error .usernameTaken)) ∧
    ((demoAlice.join_room "c1" "nope" 3).1 = demoAlice ∧
      ChatServer.handle_join_room demoAlice "c1" "nope" 3 =
        (demoAlice.send_message_to_client "c1"
          (.JoinRoomError (SrvErr.roomNotFound).render) 3, .error .roomNotFound)) ∧
    ((demoAlice.leave_room "c1" 4).1 = demoAlice ∧
      ChatServer.handle_leave_room demoAlice "c1" 4 =
        (demoAlice.send_message_to_client "c1"
          (.Error .InvalidState (SrvErr.notInRoom).render) 4, .error .notInRoom)) :=
  ⟨rejected_request_one_frame_unchanged.1 demoAlice "c2" "alice" 7 .usernameTaken
     (by rfl),
   rejected_request_one_frame_unchanged.2.1 demoAlice "c1" "nope" 3 .roomNotFound
     (by rfl),
   rejected_request_one_frame_unchanged.2.2.1 demoAlice "c1" 4 .notInRoom
     (by rfl)⟩

/-! ## C9 -/

theorem HMap.insert_insert {V : Type} (k : String) (v1 v2 : V)
    (l : List (String × V)) :
    HMap.insert k v2 (HMap.insert k v1 l) = HMap.insert k v2 l := by
  induction l with
  | nil => simp [HMap.insert]
  | cons p rest ih =>
      obtain ⟨a, b⟩ := p
      by_cases h : k = a <;> simp [HMap.insert, h, ih]

theorem HMap.all_insert {V : Type} (P : String × V → Bool) (k : String) (v : V)
    (l : List (String × V)) (hl : l.all P = true) (hv : P (k, v) = true) :
    (HMap.insert k v l).all P = true := by
  induction l with
  | nil => simp [HMap.insert, hv]
  | cons p rest ih =>
      obtain ⟨a, b⟩ := p
      simp only [List.all_cons, Bool.and_eq_true] at hl
      by_cases h : k = a
      · subst h
        simp [HMap.insert, hv, hl.2]
      · simp [HMap.insert, h, hl.1, ih hl.2]

theorem HMap.all_erase {V : Type} (P : String × V → Bool) (k : String)
    (l : List (String × V)) (hl : l.all P = true) :
    (HMap.erase k l).all P = true := by
  induction l with
  | nil => simp [HMap.erase]
  | cons p rest ih =>
      obtain ⟨a, b⟩ := p
      simp only [List.all_cons, Bool.and_eq_true] at hl
      by_cases h : k = a
      · subst h
        simpa [HMap.erase] using ih hl.2
      · simp [HMap.erase, h, hl.1, ih hl.2]

theorem HMap.all_lookup {V : Type} (P : String × V → Bool) (k : String) (v : V)
    (l : List (String × V)) (hl : l.all P = true)
    (h : HMap.lookup k l = some v) : P (k, v) = true := by
  induction l with
  | nil => simp [HMap.lookup] at h
  | cons p rest ih =>
      obtain ⟨a, b⟩ := p
      simp only [List.all_cons, Bool.and_eq_true] at hl
      by_cases hk : k = a
      · subst hk
        simp [HMap.lookup] at h
        subst h
        exact hl.1
      · simp [HMap.lookup, hk] at h
        exact ih hl.2 h

/-- The claim's session-record invariant for one client: `username` is set
iff the state is `Authenticated` or `InRoom`, `current_room` is set iff the
state is `InRoom`, and an `InRoom(u, r)` state pins both fields. -/
def Client.session_inv (c : Client) : Bool :=
  (c.username.isSome == c.session_state.isAuthedOrInRoom) &&
  (c.current_room.isSome == c.session_state.isInRoom) &&
  (match c.session_state with
   | .InRoom u r => c.current_room == some r && c.username == some u
   | _ => true)

/-- Every session record in the directory satisfies the invariant. -/
def ServerState.clients_inv (s : ServerState) : Bool :=
  s.clients.all fun p => p.2.session_inv

theorem remove_client_clients_eq (s : ServerState) (cid : ClientId) (now : Nat) :
    (s.remove_client cid now).clients = HMap.erase cid s.clients := by
  unfold ServerState.remove_client
  cases hc : HMap.lookup cid s.clients with
  | none => rfl
  | some client =>
    cases hu : client.username with
    | none =>
      cases hcr : client.current_room with
      | none => simp [hu, hcr]
      | some rid =>
        cases hroom : HMap.lookup rid s.rooms with
        | none => simp [hu, hcr, hroom]
        | some room =>
          cases hrem : (room.remove_user cid).2 with
          | none => simp [hu, hcr, hroom, hrem]
          | some w => simp [hu, hcr, hroom, hrem, ServerState.broadcast_clients]
    | some u =>
      cases hcr : client.current_room with
      | none => simp [hu, hcr]
      | some rid =>
        cases hroom : HMap.lookup rid s.rooms with
        | none => simp [hu, hcr, hroom]
        | some room =>
          cases hrem : (room.remove_user cid).2 with
          | none => simp [hu, hcr, hroom, hrem]
          | some w => simp [hu, hcr, hroom, hrem, ServerState.broadcast_clients]

theorem authenticate_clients_inv (s : ServerState) (cid : ClientId) (u : String)
    (hinv : s.clients_inv = true) :
    ((s.authenticate_client cid u).1).clients_inv = true := by
  by_cases h1 : HMap.contains u s.username_to_client
  · simpa [ServerState.authenticate_client, h1] using hinv
  · cases hc : HMap.lookup cid s.clients with
    | none => simpa [ServerState.authenticate_client, h1, hc] using hinv
    | some client =>
      by_cases hst : client.session_state = .Connected
      · have hci : client.session_inv = true :=
          HMap.all_lookup _ cid client s.clients hinv hc
        have hroom : client.current_room = none := by
          rw [Client.session_inv, hst] at hci
          simp [SessionState.isInRoom, SessionState.isAuthedOrInRoom] at hci
          exact hci.2
        unfold ServerState.clients_inv at hinv
        have hins : (HMap.insert cid
            { client with username := some u, session_state := .Authenticated u }
            s.clients).all (fun p => p.2.session_inv) = true := by
          apply HMap.all_insert _ _ _ _ hinv
          simp [Client.session_inv, hroom, SessionState.isAuthedOrInRoom,
                SessionState.isInRoom]
        simpa [ServerState.authenticate_client, h1, hc, hst,
               ServerState.clients_inv] using hins
      · simpa [ServerState.authenticate_client, h1, hc, hst] using hinv

theorem join_room_clients_eq (s : ServerState) (cid : ClientId) (rid : RoomId)
    (now : Nat) (client : Client) (u : String)
    (hc : HMap.lookup cid s.clients = some client)
    (hu : client.username = some u)
    (hr : HMap.contains rid s.rooms = true) :
    ((s.join_room cid rid now).1).clients =
      HMap.insert cid { client with current_room := some rid,
                                    session_state := .InRoom u rid } s.clients := by
  cases hcr : client.current_room with
  | none =>
    cases hfin : HMap.lookup rid s.rooms with
    | none => simp [ServerState.join_room, hc, hu, hcr, hr, hfin]
    | some roomB => simp [ServerState.join_room, hc, hu, hcr, hr, hfin]
  | some A =>
    cases hA : HMap.lookup A s.rooms with
    | none =>
      cases hfin : HMap.lookup rid s.rooms with
      | none =>
          simp [ServerState.join_room, hc, hu, hcr, hr, hA, hfin,
                HMap.insert_insert]
      | some roomB =>
          simp [ServerState.join_room, hc, hu, hcr, hr, hA, hfin,
                HMap.insert_insert]
    | some roomA =>
      cases hfin :
          HMap.lookup rid (HMap.insert A (roomA.remove_user cid).1 s.rooms) with
      | none =>
          simp [ServerState.join_room, hc, hu, hcr, hr, hA, hfin,
                ServerState.broadcast_rooms, ServerState.broadcast_clients,
                HMap.insert_insert]
      | some roomB =>
          simp [ServerState.join_room, hc, hu, hcr, hr, hA, hfin,
                ServerState.broadcast_rooms, ServerState.broadcast_clients,
                HMap.insert_insert]

theorem join_room_clients_inv (s : ServerState) (cid : ClientId) (rid : RoomId)
    (now : Nat) (hinv : s.clients_inv = true) :
    ((s.join_room cid rid now).1).clients_inv = true := by
  cases hc : HMap.lookup cid s.clients with
  | none => simpa [ServerState.join_room, hc] using hinv
  | some client =>
    cases hu : client.username with
    | none => simpa [ServerState.join_room, hc, hu] using hinv
    | some u =>
      by_cases hr : HMap.contains rid s.rooms
      · have hcl := join_room_clients_eq s cid rid now client u hc hu hr
        unfold ServerState.clients_inv at hinv ⊢
        rw [hcl]
        apply HMap.all_insert _ _ _ _ hinv
        simp [Client.session_inv, hu, SessionState.isAuthedOrInRoom,
              SessionState.isInRoom]
      · simp only [Bool.not_eq_true] at hr
        simpa [ServerState.join_room, hc, hu, hr] using hinv

theorem leave_room_clients_inv (s : ServerState) (cid : ClientId) (now : Nat)
    (hinv : s.clients_inv = true) :
    ((s.leave_room cid now).1).clients_inv = true := by
  cases hc : HMap.lookup cid s.clients with
  | none => simpa [ServerState.leave_room, hc] using hinv
  | some client =>
    cases hu : client.username with
    | none => simpa [ServerState.leave_room, hc, hu] using hinv
    | some u =>
      cases hcr : client.current_room with
      | none => simpa [ServerState.leave_room, hc, hu, hcr] using hinv
      | some rid =>
        have hcl : ((s.leave_room cid now).1).clients =
            HMap.insert cid { client with current_room := none,
                                          session_state := .Authenticated u }
              s.clients := by
          cases hroom : HMap.lookup rid s.rooms with
          | none =>
              simp [ServerState.leave_room, hc, hu, hcr, hroom,
                    ServerState.broadcast_clients]
          | some room =>
              simp [ServerState.leave_room, hc, hu, hcr, hroom,
                    ServerState.broadcast_clients]
        unfold ServerState.clients_inv at hinv ⊢
        rw [hcl]
        apply HMap.all_insert _ _ _ _ hinv
        simp [Client.session_inv, hu, SessionState.isAuthedOrInRoom,
              SessionState.isInRoom]

/-- C9: every directory operation — `add_client`, `authenticate_client`,
`join_room`, `leave_room`, `remove_client` — preserves the session-record
invariant: `username` is `Some` iff the state is `Authenticated` or `InRoom`,
`current_room` is `Some` iff the state is `InRoom`, and `InRoom(u, r)` forces
`current_room = r` and `username = u`. -/
theorem directory_ops_preserve_session_inv (s : ServerState)
    (hinv : s.clients_inv = true) :
    (∀ cid : ClientId, (s.add_client cid).clients_inv = true) ∧
    (∀ (cid : ClientId) (u : String),
       ((s.authenticate_client cid u).1).clients_inv = true) ∧
    (∀ (cid : ClientId) (rid : RoomId) (now : Nat),
       ((s.join_room cid rid now).1).clients_inv = true) ∧
    (∀ (cid : ClientId) (now : Nat),
       ((s.leave_room cid now).1).clients_inv = true) ∧
    (∀ (cid : ClientId) (now : Nat),
       (s.remove_client cid now).clients_inv = true) := by
  refine ⟨?_, ?_, ?_, ?_, ?_⟩
  · intro cid
    unfold ServerState.clients_inv at hinv ⊢
    unfold ServerState.add_client
    exact HMap.all_insert _ _ _ _ hinv rfl
  · intro cid u
    exact authenticate_clients_inv s cid u hinv
  · intro cid rid now
    exact join_room_clients_inv s cid rid now hinv
  · intro cid now
    exact leave_room_clients_inv s cid now hinv
  · intro cid now
    unfold ServerState.clients_inv at hinv ⊢
    rw [remove_client_clients_eq]
    exact HMap.all_erase _ _ _ hinv

theorem directory_ops_preserve_session_inv_witness :
    (demoAlice.add_client "c9").clients_inv = true ∧
    ((demoAlice.authenticate_client "c2" "bob").1).clients_inv = true ∧
    ((demoAlice.join_room "c1" "general" 8).1).clients_inv = true ∧
    ((demoAlice.leave_room "c1" 9).1).clients_inv = true ∧
    (demoAlice.remove_client "c1" 10).clients_inv = true :=
  ⟨(directory_ops_preserve_session_inv demoAlice (by decide)).1 "c9",
   (directory_ops_preserve_session_inv demoAlice (by decide)).2.1 "c2" "bob",
   (directory_ops_preserve_session_inv demoAlice (by decide)).2.2.1 "c1" "general" 8,
   (directory_ops_preserve_session_inv demoAlice (by decide)).2.2.2.1 "c1" 9,
   (directory_ops_preserve_session_inv demoAlice (by decide)).2.2.2.2 "c1" 10⟩

/-! ## C4 -/

theorem HMap.mem_keys_erase {V : Type} (k m : String) (l : List (String × V)) :
    m ∈ HMap.keys (HMap.erase k l) ↔ (¬ m = k ∧ m ∈ HMap.keys l) := by
  rw [HMap.mem_keys_iff, HMap.lookup_erase, HMap.mem_keys_iff]
  by_cases h : m = k <;> simp [h]

/-- C4: a client of room A that successfully joins a different, existing room
B causes exactly one `UserLeft` frame to be appended to the queue of each of
A's other members (members with a live sender), nothing to be delivered to
the mover or to anyone outside A (in particular the `UserLeft` is emitted
before admission to B: B's own members receive nothing from `join_room`),
and afterwards the mover's id occurs exactly once in B's membership and not
at all in A's. -/
theorem join_room_moves_membership (s : ServerState) (cid : ClientId)
    (u : String) (A B : RoomId) (now : Nat) (client : Client)
    (roomA roomB : Room)
    (hc : HMap.lookup cid s.clients = some client)
    (hu : client.username = some u)
    (hcr : client.current_room = some A)
    (hA : HMap.lookup A s.rooms = some roomA)
    (hB : HMap.lookup B s.rooms = some roomB)
    (hAB : ¬ A = B)
    (hndA : (HMap.keys roomA.users).Nodup)
    (hndB : (HMap.keys roomB.users).Nodup) :
    (s.join_room cid B now).2 = .ok ((roomB.add_user cid u).get_usernames) ∧
    HMap.lookup B ((s.join_room cid B now).1).rooms =
      some (roomB.add_user cid u) ∧
    (HMap.keys (roomB.add_user cid u).users).count cid = 1 ∧
    HMap.lookup A ((s.join_room cid B now).1).rooms =
      some ((roomA.remove_user cid).1) ∧
    (HMap.keys ((roomA.remove_user cid).1).users).count cid = 0 ∧
    (∀ m : ClientId, m ∈ HMap.keys roomA.users → ¬ m = cid →
       (HMap.lookup m s.client_senders).isSome →
       HMap.lookup m ((s.join_room cid B now).1).client_senders =
         (HMap.lookup m s.client_senders).map
           (fun q => q ++ [ProtocolFrame.new (.UserLeft u A) none 0 now])) ∧
    HMap.lookup cid ((s.join_room cid B now).1).client_senders =
      HMap.lookup cid s.client_senders ∧
    (∀ m : ClientId, ¬ m ∈ HMap.keys roomA.users →
       HMap.lookup m ((s.join_room cid B now).1).client_senders =
         HMap.lookup m s.client_senders) := by
  have hBA : ¬ B = A := fun h => hAB h.symm
  have hr : HMap.contains B s.rooms = true := by simp [HMap.contains, hB]
  have h2 : (s.join_room cid B now).2 = .ok ((roomB.add_user cid u).get_usernames) := by
    simp [ServerState.join_room, hc, hu, hcr, hr, hA, hB, hBA,
          ServerState.broadcast_rooms, HMap.lookup_insert]
  have hrooms : ((s.join_room cid B now).1).rooms =
      HMap.insert B (roomB.add_user cid u)
        (HMap.insert A ((roomA.remove_user cid).1) s.rooms) := by
    simp [ServerState.join_room, hc, hu, hcr, hr, hA, hB, hBA,
          ServerState.broadcast_rooms, HMap.lookup_insert]
  have hsenders : ((s.join_room cid B now).1).client_senders =
      (ServerState.broadcast_to_room
        { clients := HMap.insert cid { client with current_room := none } s.clients,
          rooms := HMap.insert A ((roomA.remove_user cid).1) s.rooms,
          username_to_client := s.username_to_client,
          client_senders := s.client_senders }
        A (ProtocolFrame.new (.UserLeft u A) none 0 now)
        (some cid)).client_senders := by
    simp [ServerState.join_room, hc, hu, hcr, hr, hA, hB, hBA,
          ServerState.broadcast_rooms, HMap.lookup_insert]
  have hroomA2 : HMap.lookup A
      (HMap.insert A ((roomA.remove_user cid).1) s.rooms) =
      some ((roomA.remove_user cid).1) := by
    rw [HMap.lookup_insert]
    simp
  have hnd2 : (HMap.keys ((roomA.remove_user cid).1).users).Nodup := by
    simpa [Room.remove_user] using HMap.nodup_keys_erase cid roomA.users hndA
  have hbl := fun (m : ClientId) =>
    ServerState.broadcast_lookup
      { clients := HMap.insert cid { client with current_room := none } s.clients,
        rooms := HMap.insert A ((roomA.remove_user cid).1) s.rooms,
        username_to_client := s.username_to_client,
        client_senders := s.client_senders }
      A (ProtocolFrame.new (.UserLeft u A) none 0 now) (some cid) m
      ((roomA.remove_user cid).1) hroomA2 hnd2
  refine ⟨h2, ?_, ?_, ?_, ?_, ?_, ?_, ?_⟩
  · rw [hrooms, HMap.lookup_insert]
    simp
  · apply HMap.count_keys_of_lookup_some cid u
    · simpa [Room.add_user] using HMap.nodup_keys_insert cid u roomB.users hndB
    · simp [Room.add_user, HMap.lookup_insert]
  · rw [hrooms, HMap.lookup_insert, if_neg hAB, HMap.lookup_insert]
    simp
  · apply HMap.count_keys_of_lookup_none
    simp [Room.remove_user, HMap.lookup_erase]
  · intro m hm hne hs
    have hne2 : ¬ (some cid = some m) := by
      simp
      exact fun h => hne h.symm
    rw [hsenders, hbl m, if_pos]
    refine ⟨?_, hne2, hs⟩
    simp [Room.remove_user]
    rw [HMap.mem_keys_erase]
    exact ⟨hne, hm⟩
  · rw [hsenders, hbl cid, if_neg]
    intro hcond
    have := hcond.1
    simp [Room.remove_user, HMap.mem_keys_erase] at this
  · intro m hm
    rw [hsenders, hbl m, if_neg]
    intro hcond
    have := hcond.1
    simp [Room.remove_user, HMap.mem_keys_erase] at this
    exact hm this.2

/-- `demoAlice` after client c2 also connects, as "bob". -/
def demoBoth : ServerState :=
  (ChatServer.handle_connect demoAlice "c2" "bob" 2).1

/-- Both alice (c1) and bob (c2) are members of room "general". -/
def demoTwoInGeneral : ServerState :=
  (ChatServer.handle_join_room
    ((ChatServer.handle_join_room demoBoth "c1" "general" 3).1) "c2" "general" 4).1

/-- The session record of c1 inside `demoTwoInGeneral`. -/
def demoClientC1 : Client :=
  { id := "c1", username := some "alice", current_room := some "general",
    session_state := .InRoom "alice" "general", sequence_number := 0 }

/-- The "general" room inside `demoTwoInGeneral`. -/
def demoGeneral : Room :=
  { id := "general", name := "Salon Général",
    users := [("c1", "alice"), ("c2", "bob")], created_at := 0 }

/-- The "tech" room inside `demoTwoInGeneral`. -/
def demoTech : Room :=
  { id := "tech", name := "Discussions Tech", users := [], created_at := 0 }

theorem join_room_moves_membership_witness :
    (demoTwoInGeneral.join_room "c1" "tech" 9).2 =
      .ok ((demoTech.add_user "c1" "alice").get_usernames) ∧
    HMap.lookup "tech" ((demoTwoInGeneral.join_room "c1" "tech" 9).1).rooms =
      some (demoTech.add_user "c1" "alice") ∧
    (HMap.keys (demoTech.add_user "c1" "alice").users).count "c1" = 1 ∧
    HMap.lookup "general" ((demoTwoInGeneral.join_room "c1" "tech" 9).1).rooms =
      some ((demoGeneral.remove_user "c1").1) ∧
    (HMap.keys ((demoGeneral.remove_user "c1").1).users).count "c1" = 0 ∧
    HMap.lookup "c2" ((demoTwoInGeneral.join_room "c1" "tech" 9).1).client_senders =
      (HMap.lookup "c2" demoTwoInGeneral.client_senders).map
        (fun q => q ++ [ProtocolFrame.new (.UserLeft "alice" "general") none 0 9]) ∧
    HMap.lookup "c1" ((demoTwoInGeneral.join_room "c1" "tech" 9).1).client_senders =
      HMap.lookup "c1" demoTwoInGeneral.client_senders ∧
    HMap.lookup "c9" ((demoTwoInGeneral.join_room "c1" "tech" 9).1).client_senders =
      HMap.lookup "c9" demoTwoInGeneral.client_senders := by
  have w := join_room_moves_membership demoTwoInGeneral "c1" "alice" "general"
    "tech" 9 demoClientC1 demoGeneral demoTech (by decide) (by decide)
    (by decide) (by decide) (by decide) (by decide) (by decide) (by decide)
  exact ⟨w.1, w.2.1, w.2.2.1, w.2.2.2.1, w.2.2.2.2.1,
         w.2.2.2.2.2.1 "c2" (by decide) (by decide) (by decide),
         w.2.2.2.2.2.2.1,
         w.2.2.2.2.2.2.2 "c9" (by decide)⟩

/-! ## C10 -/

/-- C10: a `SendMessage` from a client in a room is broadcast with no
excluded client: every current member of the room that still has a sender —
including the sender itself, which is a member — gets exactly one copy of
the `RoomMessage` frame appended to its outbound queue, and clients outside
the room receive nothing (unlike `UserJoined`/`UserLeft`, which exclude the
acting client; compare the exclusion in C4's conclusions). -/
theorem send_message_broadcasts_to_all (s : ServerState) (cid : ClientId)
    (content : String) (now : Nat) (client : Client) (u : String)
    (rid : RoomId) (room : Room)
    (hc : HMap.lookup cid s.clients = some client)
    (hu : client.username = some u)
    (hcr : client.current_room = some rid)
    (hroom : HMap.lookup rid s.rooms = some room)
    (hnd : (HMap.keys room.users).Nodup)
    (hmem : cid ∈ HMap.keys room.users)
    (hsend : (HMap.lookup cid s.client_senders).isSome) :
    (ChatServer.handle_send_message s cid content now).2 = .ok () ∧
    (∀ m : ClientId, m ∈ HMap.keys room.users →
       (HMap.lookup m s.client_senders).isSome →
       HMap.lookup m ((ChatServer.handle_send_message s cid content now).1).client_senders =
         (HMap.lookup m s.client_senders).map
           (fun q => q ++ [ProtocolFrame.new (.RoomMessage u content now rid) none 0 now])) ∧
    HMap.lookup cid ((ChatServer.handle_send_message s cid content now).1).client_senders =
      (HMap.lookup cid s.client_senders).map
        (fun q => q ++ [ProtocolFrame.new (.RoomMessage u content now rid) none 0 now]) ∧
    (∀ m : ClientId, ¬ m ∈ HMap.keys room.users →
       HMap.lookup m ((ChatServer.handle_send_message s cid content now).1).client_senders =
         HMap.lookup m s.client_senders) := by
  have hres : ChatServer.handle_send_message s cid content now =
      (s.broadcast_to_room rid
        (ProtocolFrame.new (.RoomMessage u content now rid) none 0 now) none,
       .ok ()) := by
    simp [ChatServer.handle_send_message, hc, hu, hcr]
  have hbl := fun (m : ClientId) =>
    ServerState.broadcast_lookup s rid
      (ProtocolFrame.new (.RoomMessage u content now rid) none 0 now) none m
      room hroom hnd
  have hall : ∀ m : ClientId, m ∈ HMap.keys room.users →
      (HMap.lookup m s.client_senders).isSome →
      HMap.lookup m ((ChatServer.handle_send_message s cid content now).1).client_senders =
        (HMap.lookup m s.client_senders).map
          (fun q => q ++ [ProtocolFrame.new (.RoomMessage u content now rid) none 0 now]) := by
    intro m hm hs
    rw [hres, hbl m, if_pos]
    exact ⟨hm, by simp, hs⟩
  refine ⟨by rw [hres], hall, hall cid hmem hsend, ?_⟩
  · intro m hm
    rw [hres, hbl m, if_neg]
    intro hcond
    exact hm hcond.1

theorem send_message_broadcasts_to_all_witness :
    (ChatServer.handle_send_message demoTwoInGeneral "c1" "salut" 9).2 = .ok () ∧
    HMap.lookup "c1"
        ((ChatServer.handle_send_message demoTwoInGeneral "c1" "salut" 9).1).client_senders =
      (HMap.lookup "c1" demoTwoInGeneral.client_senders).map
        (fun q => q ++
          [ProtocolFrame.new (.RoomMessage "alice" "salut" 9 "general") none 0 9]) ∧
    HMap.lookup "c2"
        ((ChatServer.handle_send_message demoTwoInGeneral "c1" "salut" 9).1).client_senders =
      (HMap.lookup "c2" demoTwoInGeneral.client_senders).map
        (fun q => q ++
          [ProtocolFrame.new (.RoomMessage "alice" "salut" 9 "general") none 0 9]) ∧
    HMap.lookup "c9"
        ((ChatServer.handle_send_message demoTwoInGeneral "c1" "salut" 9).1).client_senders =
      HMap.lookup "c9" demoTwoInGeneral.client_senders := by
  have w := send_message_broadcasts_to_all demoTwoInGeneral "c1" "salut" 9
    demoClientC1 "alice" "general" demoGeneral (by decide) (by decide)
    (by decide) (by decide) (by decide) (by decide) (by decide)
  exact ⟨w.1, w.2.2.1, w.2.1 "c2" (by decide) (by decide), w.2.2.2 "c9" (by decide)⟩

/-! ## C2 -/

/-- Server state after it has sent two frames to client c1: the `ConnectAck`
answering its `Connect`, then the `Pong` answering a `Ping`. -/
def seqDemoState : ServerState :=
  (ChatServer.handle_ping demoAlice "c1" 7).1

/-- C2 counterexample: two successive frames the server sends to the same
client both carry sequence 0 — the sequence is not strictly increasing
(`Client::next_sequence` exists but is never called; every server call site
passes sequence 0). -/
theorem server_sequence_not_increasing :
    ((HMap.lookup "c1" seqDemoState.client_senders).getD []).map
        ProtocolFrame.sequence = [0, 0] ∧
    ¬ (((HMap.lookup "c1" seqDemoState.client_senders).getD []).map
        ProtocolFrame.sequence).Chain' (fun a b => a < b) := by
  have hmap : ((HMap.lookup "c1" seqDemoState.client_senders).getD []).map
      ProtocolFrame.sequence = ([0, 0] : List Nat) := rfl
  refine ⟨hmap, ?_⟩
  rw [hmap]
  simp [List.chain'_cons]

/-- Every frame in every outbound queue carries sequence 0. -/
def ServerState.all_seq_zero (s : ServerState) : Bool :=
  s.client_senders.all fun p => p.2.all fun f => f.sequence == 0

theorem HMap.all_modify {V : Type} (P : String × V → Bool) (k : String)
    (g : V → V) (l : List (String × V)) (hl : l.all P = true)
    (hg : ∀ (a : String) (v : V), P (a, v) = true → P (a, g v) = true) :
    (HMap.modify k g l).all P = true := by
  induction l with
  | nil => simp [HMap.modify]
  | cons p rest ih =>
      obtain ⟨a, b⟩ := p
      simp only [List.all_cons, Bool.and_eq_true] at hl
      by_cases h : a = k
      · subst h
        simp [HMap.modify, ih hl.2, hg _ _ hl.1]
      · simp [HMap.modify, h, hl.1, ih hl.2]

theorem seq_zero_of_senders_eq (s s2 : ServerState)
    (hs : s2.client_senders = s.client_senders)
    (h : s.all_seq_zero = true) : s2.all_seq_zero = true := by
  unfold ServerState.all_seq_zero at h ⊢
  rw [hs]
  exact h

theorem seq_zero_enqueue (s : ServerState) (cid : ClientId) (fr : ProtocolFrame)
    (h : s.all_seq_zero = true) (hf : fr.sequence = 0) :
    (s.enqueue_frame cid fr).all_seq_zero = true := by
  unfold ServerState.all_seq_zero at h ⊢
  unfold ServerState.enqueue_frame
  apply HMap.all_modify _ _ _ _ h
  intro a v hv
  simp only [List.all_append, Bool.and_eq_true]
  exact ⟨hv, by simp [hf]⟩

theorem seq_zero_send (s : ServerState) (cid : ClientId) (m : Message) (now : Nat)
    (h : s.all_seq_zero = true) :
    (s.send_message_to_client cid m now).all_seq_zero = true := by
  unfold ServerState.send_message_to_client
  cases HMap.lookup cid s.client_senders with
  | none => exact h
  | some q => exact seq_zero_enqueue s cid _ h rfl

theorem seq_zero_deliver_step (fr : ProtocolFrame) (ex : Option ClientId)
    (acc : ServerState) (member : ClientId × String)
    (h : acc.all_seq_zero = true) (hf : fr.sequence = 0) :
    (ServerState.deliver_step fr ex acc member).all_seq_zero = true := by
  unfold ServerState.deliver_step
  split
  · exact h
  · split
    · exact seq_zero_enqueue acc member.1 fr h hf
    · exact h

theorem seq_zero_foldl (fr : ProtocolFrame) (ex : Option ClientId)
    (users : List (ClientId × String)) (s : ServerState)
    (h : s.all_seq_zero = true) (hf : fr.sequence = 0) :
    ((users.foldl (ServerState.deliver_step fr ex) s)).all_seq_zero = true := by
  induction users generalizing s with
  | nil => exact h
  | cons p rest ih =>
      rw [List.foldl_cons]
      exact ih _ (seq_zero_deliver_step fr ex s p h hf)

theorem seq_zero_broadcast (s : ServerState) (rid : RoomId) (fr : ProtocolFrame)
    (ex : Option ClientId) (h : s.all_seq_zero = true) (hf : fr.sequence = 0) :
    (s.broadcast_to_room rid fr ex).all_seq_zero = true := by
  unfold ServerState.broadcast_to_room
  cases HMap.lookup rid s.rooms with
  | none => exact h
  | some room => exact seq_zero_foldl fr ex room.users s h hf

theorem authenticate_senders_eq (s : ServerState) (cid : ClientId) (u : String) :
    ((s.authenticate_client cid u).1).client_senders = s.client_senders := by
  by_cases h1 : HMap.contains u s.username_to_client
  · simp [ServerState.authenticate_client, h1]
  · cases hc : HMap.lookup cid s.clients with
    | none => simp [ServerState.authenticate_client, h1, hc]
    | some client =>
        by_cases hst : client.session_state = .Connected <;>
          simp [ServerState.authenticate_client, h1, hc, hst]

theorem seq_zero_join_room (s : ServerState) (cid : ClientId) (rid : RoomId)
    (now : Nat) (h : s.all_seq_zero = true) :
    ((s.join_room cid rid now).1).all_seq_zero = true := by
  cases hc : HMap.lookup cid s.clients with
  | none => simpa [ServerState.join_room, hc] using h
  | some client =>
    cases hu : client.username with
    | none => simpa [ServerState.join_room, hc, hu] using h
    | some u =>
      by_cases hr : HMap.contains rid s.rooms
      · cases hcr : client.current_room with
        | none =>
          cases hfin : HMap.lookup rid s.rooms with
          | none =>
              apply seq_zero_of_senders_eq s _ _ h
              simp [ServerState.join_room, hc, hu, hcr, hr, hfin]
          | some roomB =>
              apply seq_zero_of_senders_eq s _ _ h
              simp [ServerState.join_room, hc, hu, hcr, hr, hfin]
        | some A =>
          cases hA : HMap.lookup A s.rooms with
          | none =>
            cases hfin : HMap.lookup rid s.rooms with
            | none =>
                apply seq_zero_of_senders_eq s _ _ h
                simp [ServerState.join_room, hc, hu, hcr, hr, hA, hfin]
            | some roomB =>
                apply seq_zero_of_senders_eq s _ _ h
                simp [ServerState.join_room, hc, hu, hcr, hr, hA, hfin]
          | some roomA =>
            have hb : (ServerState.broadcast_to_room
                { clients := HMap.insert cid { client with current_room := none }
                    s.clients,
                  rooms := HMap.insert A ((roomA.remove_user cid).1) s.rooms,
                  username_to_client := s.username_to_client,
                  client_senders := s.client_senders }
                A (ProtocolFrame.new (.UserLeft u A) none 0 now)
                (some cid)).all_seq_zero = true := by
              apply seq_zero_broadcast _ _ _ _ _ rfl
              exact seq_zero_of_senders_eq s _ rfl h
            cases hfin : HMap.lookup rid
                (HMap.insert A ((roomA.remove_user cid).1) s.rooms) with
            | none =>
                apply seq_zero_of_senders_eq _ _ _ hb
                simp [ServerState.join_room, hc, hu, hcr, hr, hA, hfin,
                      ServerState.broadcast_rooms]
            | some roomB =>
                apply seq_zero_of_senders_eq _ _ _ hb
                simp [ServerState.join_room, hc, hu, hcr, hr, hA, hfin,
                      ServerState.broadcast_rooms]
      · simp only [Bool.not_eq_true] at hr
        simpa [ServerState.join_room, hc, hu, hr] using h

theorem seq_zero_leave_room (s : ServerState) (cid : ClientId) (now : Nat)
    (h : s.all_seq_zero = true) :
    ((s.leave_room cid now).1).all_seq_zero = true := by
  cases hc : HMap.lookup cid s.clients with
  | none => simpa [ServerState.leave_room, hc] using h
  | some client =>
    cases hu : client.username with
    | none => simpa [ServerState.leave_room, hc, hu] using h
    | some u =>
      cases hcr : client.current_room with
      | none => simpa [ServerState.leave_room, hc, hu, hcr] using h
      | some rid =>
        cases hroom : HMap.lookup rid s.rooms with
        | none =>
            have hb : (ServerState.broadcast_to_room
                { clients := HMap.insert cid
                    { client with current_room := none,
                                  session_state := .Authenticated u } s.clients,
                  rooms := s.rooms,
                  username_to_client := s.username_to_client,
                  client_senders := s.client_senders }
                rid (ProtocolFrame.new (.UserLeft u rid) none 0 now)
                (some cid)).all_seq_zero = true := by
              apply seq_zero_broadcast _ _ _ _ _ rfl
              exact seq_zero_of_senders_eq s _ rfl h
            apply seq_zero_of_senders_eq _ _ _ hb
            simp [ServerState.leave_room, hc, hu, hcr, hroom]
        | some room =>
            have hb : (ServerState.broadcast_to_room
                { clients := HMap.insert cid
                    { client with current_room := none,
                                  session_state := .Authenticated u } s.clients,
                  rooms := HMap.insert rid ((room.remove_user cid).1) s.rooms,
                  username_to_client := s.username_to_client,
                  client_senders := s.client_senders }
                rid (ProtocolFrame.new (.UserLeft u rid) none 0 now)
                (some cid)).all_seq_zero = true := by
              apply seq_zero_broadcast _ _ _ _ _ rfl
              exact seq_zero_of_senders_eq s _ rfl h
            apply seq_zero_of_senders_eq _ _ _ hb
            simp [ServerState.leave_room, hc, hu, hcr, hroom]

theorem seq_zero_of_senders_erase (s1 s2 : ServerState) (cid : ClientId)
    (hs : s2.client_senders = HMap.erase cid s1.client_senders)
    (h : s1.all_seq_zero = true) : s2.all_seq_zero = true := by
  unfold ServerState.all_seq_zero at h ⊢
  rw [hs]
  exact HMap.all_erase _ _ _ h

theorem seq_zero_remove_client (s : ServerState) (cid : ClientId) (now : Nat)
    (h : s.all_seq_zero = true) :
    (s.remove_client cid now).all_seq_zero = true := by
  cases hc : HMap.lookup cid s.clients with
  | none =>
      apply seq_zero_of_senders_erase s _ cid ?_ h
      simp [ServerState.remove_client, hc]
  | some client =>
    cases hu : client.username with
    | none =>
      cases hcr : client.current_room with
      | none =>
          apply seq_zero_of_senders_erase s _ cid ?_ h
          simp [ServerState.remove_client, hc, hu, hcr]
      | some rid =>
        cases hroom : HMap.lookup rid s.rooms with
        | none =>
            apply seq_zero_of_senders_erase s _ cid ?_ h
            simp [ServerState.remove_client, hc, hu, hcr, hroom]
        | some room =>
          cases hrem : (room.remove_user cid).2 with
          | none =>
              apply seq_zero_of_senders_erase s _ cid ?_ h
              simp [ServerState.remove_client, hc, hu, hcr, hroom, hrem]
          | some w =>
              have hb : (ServerState.broadcast_to_room
                  { clients := s.clients,
                    rooms := HMap.insert rid ((room.remove_user cid).1) s.rooms,
                    username_to_client := s.username_to_client,
                    client_senders := s.client_senders }
                  rid (ProtocolFrame.new (.UserLeft "un client anonyme" rid)
                    none 0 now)
                  (some cid)).all_seq_zero = true := by
                apply seq_zero_broadcast _ _ _ _ ?_ rfl
                exact seq_zero_of_senders_eq s _ rfl h
              apply seq_zero_of_senders_erase _ _ cid ?_ hb
              simp [ServerState.remove_client, hc, hu, hcr, hroom, hrem]
    | some u =>
      cases hcr : client.current_room with
      | none =>
          apply seq_zero_of_senders_erase s _ cid ?_ h
          simp [ServerState.remove_client, hc, hu, hcr]
      | some rid =>
        cases hroom : HMap.lookup rid s.rooms with
        | none =>
            apply seq_zero_of_senders_erase s _ cid ?_ h
            simp [ServerState.remove_client, hc, hu, hcr, hroom]
        | some room =>
          cases hrem : (room.remove_user cid).2 with
          | none =>
              apply seq_zero_of_senders_erase s _ cid ?_ h
              simp [ServerState.remove_client, hc, hu, hcr, hroom, hrem]
          | some w =>
              have hb : (ServerState.broadcast_to_room
                  { clients := s.clients,
                    rooms := HMap.insert rid ((room.remove_user cid).1) s.rooms,
                    username_to_client := HMap.erase u s.username_to_client,
                    client_senders := s.client_senders }
                  rid (ProtocolFrame.new (.UserLeft u rid) none 0 now)
                  (some cid)).all_seq_zero = true := by
                apply seq_zero_broadcast _ _ _ _ ?_ rfl
                exact seq_zero_of_senders_eq s _ rfl h
              apply seq_zero_of_senders_erase _ _ cid ?_ hb
              simp [ServerState.remove_client, hc, hu, hcr, hroom, hrem]

theorem seq_zero_send_private (s : ServerState)
    (from_username to_username content : String) (now : Nat)
    (h : s.all_seq_zero = true) :
    ((s.send_private_message from_username to_username content now).1).all_seq_zero
      = true := by
  unfold ServerState.send_private_message
  cases hlook : HMap.lookup to_username s.username_to_client with
  | none => exact h
  | some tid =>
      by_cases hcon : HMap.contains tid s.client_senders
      · simp only [hcon, if_true]
        exact seq_zero_enqueue s tid _ h rfl
      · simp only [hcon, if_false]
        exact h

theorem seq_zero_handle_connect (s : ServerState) (cid : ClientId) (u : String)
    (now : Nat) (h : s.all_seq_zero = true) :
    ((ChatServer.handle_connect s cid u now).1).all_seq_zero = true := by
  have hsen := authenticate_senders_eq s cid u
  rcases hr : s.authenticate_client cid u with ⟨s1, r⟩
  rw [hr] at hsen
  have h1 : s1.all_seq_zero = true := seq_zero_of_senders_eq s s1 hsen h
  unfold ChatServer.handle_connect
  rw [hr]
  cases r with
  | ok v => exact seq_zero_send s1 cid _ now h1
  | error e => exact seq_zero_send s1 cid _ now h1

theorem seq_zero_handle_join_room (s : ServerState) (cid : ClientId)
    (rid : RoomId) (now : Nat) (h : s.all_seq_zero = true) :
    ((ChatServer.handle_join_room s cid rid now).1).all_seq_zero = true := by
  rcases hr : s.join_room cid rid now with ⟨s1, r⟩
  have h1 : s1.all_seq_zero = true := by
    have hx := seq_zero_join_room s cid rid now h
    rw [hr] at hx
    exact hx
  unfold ChatServer.handle_join_room
  rw [hr]
  cases r with
  | error e => exact seq_zero_send s1 cid _ now h1
  | ok users =>
      have h2 : (s1.send_message_to_client cid (.JoinRoomAck rid users) now).all_seq_zero
          = true := seq_zero_send s1 cid _ now h1
      cases hc2 : HMap.lookup cid
          (s1.send_message_to_client cid (.JoinRoomAck rid users) now).clients with
      | none =>
          simp only [hc2]
          exact h2
      | some client =>
          cases hu2 : client.username with
          | none =>
              simp only [hc2, hu2]
              exact h2
          | some un =>
              simp only [hc2, hu2]
              exact seq_zero_broadcast _ _ _ _ h2 rfl

theorem seq_zero_handle_leave_room (s : ServerState) (cid : ClientId) (now : Nat)
    (h : s.all_seq_zero = true) :
    ((ChatServer.handle_leave_room s cid now).1).all_seq_zero = true := by
  rcases hr : s.leave_room cid now with ⟨s1, r⟩
  have h1 : s1.all_seq_zero = true := by
    have hx := seq_zero_leave_room s cid now h
    rw [hr] at hx
    exact hx
  unfold ChatServer.handle_leave_room
  rw [hr]
  cases r with
  | ok v => exact h1
  | error e => exact seq_zero_send s1 cid _ now h1

theorem seq_zero_handle_send_message (s : ServerState) (cid : ClientId)
    (content : String) (now : Nat) (h : s.all_seq_zero = true) :
    ((ChatServer.handle_send_message s cid content now).1).all_seq_zero = true := by
  cases hc : HMap.lookup cid s.clients with
  | none => simpa [ChatServer.handle_send_message, hc] using h
  | some client =>
    cases hu : client.username with
    | none => simpa [ChatServer.handle_send_message, hc, hu] using h
    | some u =>
      cases hcr : client.current_room with
      | none => simpa [ChatServer.handle_send_message, hc, hu, hcr] using h
      | some rid =>
          have hb := seq_zero_broadcast s rid
            (ProtocolFrame.new (.RoomMessage u content now rid) none 0 now) none h rfl
          apply seq_zero_of_senders_eq _ _ ?_ hb
          simp [ChatServer.handle_send_message, hc, hu, hcr]

theorem seq_zero_handle_private_message (s : ServerState) (cid : ClientId)
    (target_user content : String) (now : Nat) (h : s.all_seq_zero = true) :
    ((ChatServer.handle_private_message s cid target_user content now).1).all_seq_zero
      = true := by
  cases hc : HMap.lookup cid s.clients with
  | none => simpa [ChatServer.handle_private_message, hc] using h
  | some client =>
    cases hu : client.username with
    | none => simpa [ChatServer.handle_private_message, hc, hu] using h
    | some u =>
      by_cases heq : u = target_user
      · have hb := seq_zero_send s cid
          (.Error .InvalidState SrvErr.selfPrivate.render) now h
        apply seq_zero_of_senders_eq _ _ ?_ hb
        simp [ChatServer.handle_private_message, hc, hu, heq]
      · rcases hp : s.send_private_message u target_user content now with ⟨s1, r⟩
        have h1 : s1.all_seq_zero = true := by
          have hx := seq_zero_send_private s u target_user content now h
          rw [hp] at hx
          exact hx
        cases r with
        | ok v =>
            apply seq_zero_of_senders_eq s1 _ ?_ h1
            simp [ChatServer.handle_private_message, hc, hu, heq, hp]
        | error e =>
            have hb := seq_zero_send s1 cid (.Error .UserNotFound e.render) now h1
            apply seq_zero_of_senders_eq _ _ ?_ hb
            simp [ChatServer.handle_private_message, hc, hu, heq, hp]

theorem seq_zero_handle_list_rooms (s : ServerState) (cid : ClientId) (now : Nat)
    (h : s.all_seq_zero = true) :
    ((ChatServer.handle_list_rooms s cid now).1).all_seq_zero = true := by
  unfold ChatServer.handle_list_rooms
  exact seq_zero_send s cid _ now h

theorem seq_zero_handle_list_users (s : ServerState) (cid : ClientId) (now : Nat)
    (h : s.all_seq_zero = true) :
    ((ChatServer.handle_list_users s cid now).1).all_seq_zero = true := by
  cases hc : HMap.lookup cid s.clients with
  | none => simpa [ChatServer.handle_list_users, hc] using h
  | some client =>
    cases hcr : client.current_room with
    | none => simpa [ChatServer.handle_list_users, hc, hcr] using h
    | some rid =>
      cases hroom : HMap.lookup rid s.rooms with
      | some room =>
          have hb := seq_zero_send s cid (.UserList room.get_usernames rid) now h
          apply seq_zero_of_senders_eq _ _ ?_ hb
          simp [ChatServer.handle_list_users, hc, hcr, hroom]
      | none =>
          have hb := seq_zero_send s cid
            (.Error .InternalError "Room not found for user list.") now h
          apply seq_zero_of_senders_eq _ _ ?_ hb
          simp [ChatServer.handle_list_users, hc, hcr, hroom]

theorem seq_zero_handle_ping (s : ServerState) (cid : ClientId) (now : Nat)
    (h : s.all_seq_zero = true) :
    ((ChatServer.handle_ping s cid now).1).all_seq_zero = true := by
  unfold ChatServer.handle_ping
  exact seq_zero_send s cid _ now h

theorem seq_zero_dispatch (s : ServerState) (m : Message) (cid : ClientId)
    (now : Nat) (h : s.all_seq_zero = true) :
    ((ChatServer.dispatch s m cid now).1).all_seq_zero = true := by
  cases m with
  | Connect u => exact seq_zero_handle_connect s cid u now h
  | JoinRoom rid => exact seq_zero_handle_join_room s cid rid now h
  | LeaveRoom => exact seq_zero_handle_leave_room s cid now h
  | SendMessage content => exact seq_zero_handle_send_message s cid content now h
  | PrivateMessage t c => exact seq_zero_handle_private_message s cid t c now h
  | ListRooms => exact seq_zero_handle_list_rooms s cid now h
  | ListUsers => exact seq_zero_handle_list_users s cid now h
  | Disconnect => exact h
  | Ping => exact seq_zero_handle_ping s cid now h
  | ConnectAck a b => exact seq_zero_send s cid _ now h
  | ConnectError a => exact seq_zero_send s cid _ now h
  | JoinRoomAck a b => exact seq_zero_send s cid _ now h
  | JoinRoomError a => exact seq_zero_send s cid _ now h
  | UserJoined a b => exact seq_zero_send s cid _ now h
  | UserLeft a b => exact seq_zero_send s cid _ now h
  | RoomMessage a b c d => exact seq_zero_send s cid _ now h
  | PrivateMessageReceived a b c => exact seq_zero_send s cid _ now h
  | RoomList a => exact seq_zero_send s cid _ now h
  | UserList a b => exact seq_zero_send s cid _ now h
  | Error a b => exact seq_zero_send s cid _ now h
  | Pong => exact seq_zero_send s cid _ now h

theorem seq_zero_process_message (s : ServerState) (frame : ProtocolFrame)
    (cid : ClientId) (now : Nat) (h : s.all_seq_zero = true) :
    ((ChatServer.process_message s frame cid now).1).all_seq_zero = true := by
  cases hv : frame.validate with
  | error e => simpa [ChatServer.process_message, hv] using h
  | ok v =>
    cases hc : HMap.lookup cid s.clients with
    | none => simpa [ChatServer.process_message, hv, hc] using h
    | some current_client =>
      cases hp : ChatServer.precheck frame.message current_client.session_state with
      | error e =>
          have hres : ChatServer.process_message s frame cid now =
              (s.send_message_to_client cid (.Error .InvalidState e.render) now,
               .error e) := by
            simp [ChatServer.process_message, hv, hc, hp]
          rw [hres]
          exact seq_zero_send s cid _ now h
      | ok v2 =>
          have hres : ChatServer.process_message s frame cid now =
              ChatServer.dispatch s frame.message cid now := by
            simp [ChatServer.process_message, hv, hc, hp]
          rw [hres]
          exact seq_zero_dispatch s frame.message cid now h

/-- C2 (amended): the sequence field is constant zero on both sides. On the
server, `Client::next_sequence` is never called: the fresh state has only
empty queues, and `add_client`, `process_message` (hence every handler) and
`remove_client` preserve the property that every frame in every outbound
queue carries sequence 0 — so no two successive frames to a client have
increasing sequence numbers. The reference client likewise stamps sequence 0
on every frame it emits. -/
theorem all_outbound_frames_sequence_zero :
    (∀ now : Nat, (ServerState.new now).all_seq_zero = true) ∧
    (∀ (s : ServerState) (cid : ClientId), s.all_seq_zero = true →
       (s.add_client cid).all_seq_zero = true) ∧
    (∀ (s : ServerState) (frame : ProtocolFrame) (cid : ClientId) (now : Nat),
       s.all_seq_zero = true →
       ((ChatServer.process_message s frame cid now).1).all_seq_zero = true) ∧
    (∀ (s : ServerState) (cid : ClientId) (now : Nat), s.all_seq_zero = true →
       (s.remove_client cid now).all_seq_zero = true) ∧
    (∀ (cmd : ClientCommand) (st : ClientLocalState) (now : Nat),
       (process_client_command cmd st now).sequence = 0) := by
  refine ⟨?_, ?_, ?_, ?_, ?_⟩
  · intro now
    rfl
  · intro s cid h
    unfold ServerState.all_seq_zero at h ⊢
    unfold ServerState.add_client
    exact HMap.all_insert _ _ _ _ h rfl
  · intro s frame cid now h
    exact seq_zero_process_message s frame cid now h
  · intro s cid now h
    exact seq_zero_remove_client s cid now h
  · intro cmd st now
    cases cmd <;> rfl

theorem all_outbound_frames_sequence_zero_witness :
    (demoAlice.add_client "c9").all_seq_zero = true ∧
    ((ChatServer.process_message demoAlice (ProtocolFrame.new .Ping none 0 7)
        "c1" 7).1).all_seq_zero = true ∧
    (demoAlice.remove_client "c1" 8).all_seq_zero = true ∧
    (process_client_command .Ping
      { id := none, username := none, current_room := none,
        session_state := .Connected } 7).sequence = 0 :=
  ⟨all_outbound_frames_sequence_zero.2.1 demoAlice "c9" (by decide),
   all_outbound_frames_sequence_zero.2.2.1 demoAlice
     (ProtocolFrame.new .Ping none 0 7) "c1" 7 (by decide),
   all_outbound_frames_sequence_zero.2.2.2.1 demoAlice "c1" 8 (by decide),
   all_outbound_frames_sequence_zero.2.2.2.2 .Ping
     { id := none, username := none, current_room := none,
       session_state := .Connected } 7⟩
